import Mathlib

/-!
Tenant control plane: resolver, quota engine and repository.

A shallow embedding of `tenant-control-plane/internal` (packages `domain`,
`identification`, `repository`, `service`, `controlplane`).

Conventions of the embedding:

* A Go `string` is a Lean `String`; the only byte-level operations of the source
  (`strings.Split` on `"."` and `"/"`, `strings.HasPrefix`, `bearer[7:]`) act on
  ASCII delimiters, so they are defined on the character list.
* A Go `map[string]V` is a function `String → Option V`; `m[k] = v` is `GoMap.set`,
  the two-valued read `v, ok := m[k]` is an `Option`.
* `int64` values are `Int`s; the one arithmetic operation of the source
  (`CurrentUsage+requested`) is wrapped to 64 bits explicitly by `wrapInt64`.
* The repository maps hold pointers.  Every pointer is stored under exactly one key
  (a tenant object under its own `TenantID`, a capability object in one slot of one
  slice), so a write through a pointer is modelled as a write to that map entry.
* `error` is `Option String` (`none` is `nil`), carrying the formatted message.
-/

namespace TenantCP

/-! ## Go maps and strings -/

/-- A Go `map[string]V`. -/
abbrev GoMap (β : Type) := String → Option β

/-- The result of `make(map[string]V)`. -/
def GoMap.empty {β : Type} : GoMap β := fun _ => none

/-- The assignment `m[k] = v`. -/
def GoMap.set {β : Type} (m : GoMap β) (k : String) (v : β) : GoMap β :=
  fun k' => if k' = k then some v else m k'

/-- The read `v, ok := m[k]` of a `map[string]string`: the zero value `""` on a miss. -/
def GoMap.lookup (m : GoMap String) (k : String) : String × Bool :=
  match m k with
  | some v => (v, true)
  | none => ("", false)

/-- The loop of `strings.Split(s, sep)` for a one-byte separator: `cur` holds, reversed,
the bytes read since the last separator. -/
def splitAux (sep : Char) : List Char → List Char → List (List Char)
  | [], cur => [cur.reverse]
  | c :: cs, cur =>
    if c = sep then cur.reverse :: splitAux sep cs [] else splitAux sep cs (c :: cur)

/-- The call `strings.Split(s, sep)` with a one-byte separator (the source uses `"."` and `"/"`). -/
def Split (s : String) (sep : Char) : List String :=
  (splitAux sep s.data []).map String.mk

/-- The call `strings.HasPrefix(s, pre)`. -/
def HasPrefix (s pre : String) : Bool :=
  pre.data.isPrefixOf s.data

/-- The slice expression `s[n:]` (used after a check that `s` starts with `n` ASCII bytes). -/
def sliceFrom (s : String) (n : Nat) : String :=
  String.mk (s.data.drop n)

/-! ## Package `domain` -/

abbrev TenantStatus := String

abbrev StatusActive : TenantStatus := "ACTIVE"
abbrev StatusSuspended : TenantStatus := "SUSPENDED"
abbrev StatusInactive : TenantStatus := "INACTIVE"
abbrev StatusProvisioning : TenantStatus := "PROVISIONING"

abbrev CapabilityType := String

abbrev CapabilityStorage : CapabilityType := "STORAGE"
abbrev CapabilityCompute : CapabilityType := "COMPUTE"
abbrev CapabilityAPICalls : CapabilityType := "API_CALLS"
abbrev CapabilityDatabase : CapabilityType := "DATABASE"
abbrev CapabilityMessaging : CapabilityType := "MESSAGING"

abbrev IdentificationStrategy := String

abbrev StrategyAPIKey : IdentificationStrategy := "API_KEY"
abbrev StrategyJWT : IdentificationStrategy := "JWT_TOKEN"
abbrev StrategySubdomain : IdentificationStrategy := "SUBDOMAIN"
abbrev StrategyCustomDomain : IdentificationStrategy := "CUSTOM_DOMAIN"
abbrev StrategyPath : IdentificationStrategy := "PATH"
abbrev StrategyHeader : IdentificationStrategy := "HEADER"

/-- The struct `domain.Tenant`; `CreatedAt` is a clock reading, `Metadata` the entries of
the string map. -/
structure Tenant where
  TenantID : String
  Name : String
  Status : TenantStatus
  CreatedAt : Nat
  Metadata : List (String × String)
deriving DecidableEq

/-- The constructor `domain.NewTenant`; `now` is the value of `time.Now()`. -/
def NewTenant (tenantID name : String) (now : Nat) : Tenant :=
  { TenantID := tenantID, Name := name, Status := StatusProvisioning,
    CreatedAt := now, Metadata := [] }

/-- The struct `domain.ResourceQuota`; both counters are `int64`. -/
structure ResourceQuota where
  MaxLimit : Int
  CurrentUsage : Int
  Unit : String
deriving DecidableEq

/-- The value of an `Int` after it is stored in an `int64` (two's complement wrap-around). -/
def wrapInt64 (x : Int) : Int :=
  (x + 2 ^ 63) % 2 ^ 64 - 2 ^ 63

/-- The values an `int64` can hold. -/
def IsInt64 (x : Int) : Prop :=
  -(2 ^ 63) ≤ x ∧ x < 2 ^ 63

instance (x : Int) : Decidable (IsInt64 x) := by
  unfold IsInt64; exact inferInstance

/-- The constructor `domain.NewResourceQuota`. -/
def NewResourceQuota (maxLimit : Int) : ResourceQuota :=
  { MaxLimit := maxLimit, CurrentUsage := 0, Unit := "units" }

/-- The method `ResourceQuota.IsQuotaExceeded`. -/
def ResourceQuota.IsQuotaExceeded (q : ResourceQuota) : Bool :=
  decide (q.CurrentUsage ≥ q.MaxLimit)

/-- The method `ResourceQuota.CanAllocate`: the sum is an `int64` and wraps. -/
def ResourceQuota.CanAllocate (q : ResourceQuota) (requested : Int) : Bool :=
  decide (wrapInt64 (q.CurrentUsage + requested) ≤ q.MaxLimit)

/-- The struct `domain.Capability`; the field `Type` of the source is `CapType`, the
quota object it points to is held inline. -/
structure Capability where
  CapType : CapabilityType
  Name : String
  Enabled : Bool
  Config : List (String × String)
  Quota : ResourceQuota
deriving DecidableEq

/-- The constructor `domain.NewCapability`. -/
def NewCapability (capType : CapabilityType) (name : String) (quota : Int) : Capability :=
  { CapType := capType, Name := name, Enabled := true, Config := [],
    Quota := NewResourceQuota quota }

/-! ## Package `identification` -/

/-- The struct `identification.TenantContext`. -/
structure TenantContext where
  TenantID : String
  Strategy : IdentificationStrategy
  Metadata : List (String × String)
deriving DecidableEq

/-- The struct `identification.RequestContext`. -/
structure RequestContext where
  Host : String
  Path : String
  Headers : GoMap String

/-- A value stored under a key of the claims object: a JSON string or anything else. -/
inductive JSONValue where
  | str (s : String)
  | other
deriving DecidableEq

/-- The two standard-library calls of the JWT strategy, taken as parameters:
`base64.RawURLEncoding.DecodeString` and `json.Unmarshal` into a
`map[string]interface{}`; `none` is a non-nil `err`. -/
structure Codec where
  DecodeString : String → Option (List Nat)
  Unmarshal : List Nat → Option (GoMap JSONValue)

/-- The method `HeaderIdentifier.IdentifyTenant`. -/
def HeaderIdentifier.IdentifyTenant (headers : GoMap String) : String × Bool :=
  headers.lookup "X-Tenant-Id"

/-- The method `JWTIdentifier.IdentifyTenant`. -/
def JWTIdentifier.IdentifyTenant (lib : Codec) (token : String) : String × Bool :=
  let parts := Split token '.'
  if parts.length ≠ 3 then ("", false)
  else
    match lib.DecodeString (parts.getD 1 "") with
    | none => ("", false)
    | some payload =>
      match lib.Unmarshal payload with
      | none => ("", false)
      | some claims =>
        match claims "tenant_id" with
        | some (JSONValue.str tenantID) => (tenantID, true)
        | _ => ("", false)

/-- The struct `identification.APIKeyIdentifier` (without its lock). -/
structure APIKeyIdentifier where
  apiKeyToTenant : GoMap String

def NewAPIKeyIdentifier : APIKeyIdentifier :=
  { apiKeyToTenant := GoMap.empty }

def APIKeyIdentifier.RegisterAPIKey (i : APIKeyIdentifier) (tenantID apiKey : String) :
    APIKeyIdentifier :=
  { apiKeyToTenant := i.apiKeyToTenant.set apiKey tenantID }

def APIKeyIdentifier.IdentifyTenant (i : APIKeyIdentifier) (apiKey : String) : String × Bool :=
  i.apiKeyToTenant.lookup apiKey

/-- The struct `identification.CustomDomainIdentifier` (without its lock). -/
structure CustomDomainIdentifier where
  domainToTenant : GoMap String

def NewCustomDomainIdentifier : CustomDomainIdentifier :=
  { domainToTenant := GoMap.empty }

def CustomDomainIdentifier.RegisterCustomDomain (i : CustomDomainIdentifier)
    (tenantID domain : String) : CustomDomainIdentifier :=
  { domainToTenant := i.domainToTenant.set domain tenantID }

def CustomDomainIdentifier.IdentifyTenant (i : CustomDomainIdentifier) (domain : String) :
    String × Bool :=
  i.domainToTenant.lookup domain

/-- The function `extractSubdomain`. -/
def extractSubdomain (host : String) : String :=
  let parts := Split host '.'
  if parts.length > 2 then parts.getD 0 "" else ""

/-- The struct `identification.SubdomainIdentifier` (without its lock). -/
structure SubdomainIdentifier where
  subdomainToTenant : GoMap String

def NewSubdomainIdentifier : SubdomainIdentifier :=
  { subdomainToTenant := GoMap.empty }

def SubdomainIdentifier.RegisterSubdomain (i : SubdomainIdentifier)
    (tenantID subdomain : String) : SubdomainIdentifier :=
  { subdomainToTenant := i.subdomainToTenant.set subdomain tenantID }

def SubdomainIdentifier.IdentifyTenant (i : SubdomainIdentifier) (host : String) :
    String × Bool :=
  let subdomain := extractSubdomain host
  if subdomain = "" then ("", false)
  else i.subdomainToTenant.lookup subdomain

/-- The method `PathIdentifier.IdentifyTenant`. -/
def PathIdentifier.IdentifyTenant (path : String) : String × Bool :=
  if !HasPrefix path "/tenants/" then ("", false)
  else
    let parts := Split path '/'
    if parts.length ≥ 3 then (parts.getD 2 "", true) else ("", false)

/-- The struct `identification.TenantResolver`; the three identifiers without a registry
have no state and are left out. -/
structure TenantResolver where
  apiKeyIdentifier : APIKeyIdentifier
  subdomainIdentifier : SubdomainIdentifier
  customDomainIdentifier : CustomDomainIdentifier
  resolutionOrder : List IdentificationStrategy

def NewTenantResolver : TenantResolver :=
  { apiKeyIdentifier := NewAPIKeyIdentifier
    subdomainIdentifier := NewSubdomainIdentifier
    customDomainIdentifier := NewCustomDomainIdentifier
    resolutionOrder :=
      [StrategyHeader, StrategyJWT, StrategyAPIKey, StrategyCustomDomain,
        StrategySubdomain, StrategyPath] }

/-- The method `TenantResolver.tryStrategy`: a `switch` whose cases that do not return
fall out to the final `return "", false`. -/
def TenantResolver.tryStrategy (lib : Codec) (r : TenantResolver)
    (strategy : IdentificationStrategy) (request : RequestContext) : String × Bool :=
  if strategy = StrategyHeader then
    HeaderIdentifier.IdentifyTenant request.Headers
  else if strategy = StrategyJWT then
    match request.Headers "Authorization" with
    | some bearer =>
      if HasPrefix bearer "Bearer " then JWTIdentifier.IdentifyTenant lib (sliceFrom bearer 7)
      else ("", false)
    | none => ("", false)
  else if strategy = StrategyAPIKey then
    match request.Headers "X-Api-Key" with
    | some apiKey => r.apiKeyIdentifier.IdentifyTenant apiKey
    | none => ("", false)
  else if strategy = StrategyCustomDomain then
    r.customDomainIdentifier.IdentifyTenant request.Host
  else if strategy = StrategySubdomain then
    r.subdomainIdentifier.IdentifyTenant request.Host
  else if strategy = StrategyPath then
    PathIdentifier.IdentifyTenant request.Path
  else ("", false)

/-- The `for ... range` loop of `TenantResolver.Resolve` over the strategies still to try. -/
def TenantResolver.resolveLoop (lib : Codec) (r : TenantResolver) (request : RequestContext) :
    List IdentificationStrategy → Option TenantContext
  | [] => none
  | strategy :: rest =>
    match r.tryStrategy lib strategy request with
    | (tenantID, true) =>
      some { TenantID := tenantID, Strategy := strategy, Metadata := [] }
    | (_, false) => TenantResolver.resolveLoop lib r request rest

/-- The method `TenantResolver.Resolve`; `none` is the result `nil, false`. -/
def TenantResolver.Resolve (lib : Codec) (r : TenantResolver) (request : RequestContext) :
    Option TenantContext :=
  r.resolveLoop lib request r.resolutionOrder

def TenantResolver.RegisterAPIKey (r : TenantResolver) (tenantID apiKey : String) :
    TenantResolver :=
  { r with apiKeyIdentifier := r.apiKeyIdentifier.RegisterAPIKey tenantID apiKey }

def TenantResolver.RegisterSubdomain (r : TenantResolver) (tenantID subdomain : String) :
    TenantResolver :=
  { r with subdomainIdentifier := r.subdomainIdentifier.RegisterSubdomain tenantID subdomain }

def TenantResolver.RegisterCustomDomain (r : TenantResolver) (tenantID domain : String) :
    TenantResolver :=
  { r with
    customDomainIdentifier := r.customDomainIdentifier.RegisterCustomDomain tenantID domain }

/-! ## Package `repository` -/

/-- The struct `repository.TenantRepository` (without its lock). -/
structure TenantRepository where
  tenants : GoMap Tenant
  tenantCapabilities : GoMap (List Capability)

def NewTenantRepository : TenantRepository :=
  { tenants := GoMap.empty, tenantCapabilities := GoMap.empty }

/-- The method `TenantRepository.Save`. -/
def TenantRepository.Save (r : TenantRepository) (tenant : Tenant) : TenantRepository :=
  { tenants := r.tenants.set tenant.TenantID tenant
    tenantCapabilities :=
      match r.tenantCapabilities tenant.TenantID with
      | some _ => r.tenantCapabilities
      | none => r.tenantCapabilities.set tenant.TenantID [] }

/-- The method `TenantRepository.FindByID`; `none` is the result `nil, false`. -/
def TenantRepository.FindByID (r : TenantRepository) (tenantID : String) : Option Tenant :=
  r.tenants tenantID

/-- The method `TenantRepository.AddCapability`; reading a missing key yields the nil slice. -/
def TenantRepository.AddCapability (r : TenantRepository) (tenantID : String)
    (capability : Capability) : TenantRepository :=
  { r with
    tenantCapabilities :=
      r.tenantCapabilities.set tenantID
        ((r.tenantCapabilities tenantID).getD [] ++ [capability]) }

/-- The method `TenantRepository.GetCapabilities`. -/
def TenantRepository.GetCapabilities (r : TenantRepository) (tenantID : String) :
    List Capability :=
  (r.tenantCapabilities tenantID).getD []

/-- The `for ... range` loop of `TenantRepository.FindCapability`. -/
def findByName (capabilityName : String) : List Capability → Option Capability
  | [] => none
  | cap :: rest => if cap.Name = capabilityName then some cap else findByName capabilityName rest

/-- The method `TenantRepository.FindCapability`; `none` is the result `nil, false`. -/
def TenantRepository.FindCapability (r : TenantRepository) (tenantID capabilityName : String) :
    Option Capability :=
  findByName capabilityName ((r.tenantCapabilities tenantID).getD [])

/-- The effect on a slice of the assignment `capability.Quota.CurrentUsage = usage` through
the pointer that the loop of `FindCapability` returns: the slot of the first capability
with the name is rewritten. -/
def writeUsage (capabilityName : String) (usage : Int) : List Capability → List Capability
  | [] => []
  | cap :: rest =>
    if cap.Name = capabilityName then
      { cap with Quota := { cap.Quota with CurrentUsage := usage } } :: rest
    else cap :: writeUsage capabilityName usage rest

/-! ## Package `service` -/

/-- The method `TenantService.CreateTenant`; `uuid` is the text of `uuid.New().String()`
and `now` the clock reading. Returns the new state and the tenant. -/
def TenantService.CreateTenant (repository : TenantRepository) (name uuid : String)
    (now : Nat) : TenantRepository × Tenant :=
  let tenantID := "tenant-" ++ String.mk (uuid.data.take 8)
  let tenant := NewTenant tenantID name now
  (repository.Save tenant, tenant)

/-- The method `TenantService.ActivateTenant`: the status is written through the pointer
`FindByID` returned and the same object is saved again. -/
def TenantService.ActivateTenant (repository : TenantRepository) (tenantID : String) :
    TenantRepository × Option String :=
  match repository.FindByID tenantID with
  | none => (repository, some ("tenant not found: " ++ tenantID))
  | some tenant =>
    let tenant := { tenant with Status := StatusActive }
    (repository.Save tenant, none)

/-- The method `TenantService.SuspendTenant`: the status is written through the pointer
`FindByID` returned and the same object is saved again. -/
def TenantService.SuspendTenant (repository : TenantRepository) (tenantID : String) :
    TenantRepository × Option String :=
  match repository.FindByID tenantID with
  | none => (repository, some ("tenant not found: " ++ tenantID))
  | some tenant =>
    let tenant := { tenant with Status := StatusSuspended }
    (repository.Save tenant, none)

/-- The method `TenantService.GetTenant`. -/
def TenantService.GetTenant (repository : TenantRepository) (tenantID : String) :
    Except String Tenant :=
  match repository.FindByID tenantID with
  | none => Except.error ("tenant not found: " ++ tenantID)
  | some tenant => Except.ok tenant

/-- The method `CapabilityService.EnableCapability`. -/
def CapabilityService.EnableCapability (repository : TenantRepository) (tenantID : String)
    (capType : CapabilityType) (name : String) (quota : Int) :
    TenantRepository × Option String :=
  match repository.FindByID tenantID with
  | none => (repository, some ("tenant not found: " ++ tenantID))
  | some tenant =>
    if tenant.Status ≠ StatusActive then
      (repository, some "tenant must be active to enable capabilities")
    else
      let capability := NewCapability capType name quota
      (repository.AddCapability tenantID capability, none)

/-- The method `CapabilityService.GetCapabilities`. -/
def CapabilityService.GetCapabilities (repository : TenantRepository) (tenantID : String) :
    List Capability :=
  repository.GetCapabilities tenantID

/-- The method `CapabilityService.CheckQuota`. -/
def CapabilityService.CheckQuota (repository : TenantRepository)
    (tenantID capabilityName : String) (requestedUsage : Int) : Bool :=
  match repository.FindCapability tenantID capabilityName with
  | none => false
  | some capability =>
    if !capability.Enabled then false
    else capability.Quota.CanAllocate requestedUsage

/-- The method `CapabilityService.UpdateUsage`. -/
def CapabilityService.UpdateUsage (repository : TenantRepository)
    (tenantID capabilityName : String) (usage : Int) : TenantRepository × Option String :=
  match repository.FindCapability tenantID capabilityName with
  | none => (repository, some ("capability not found: " ++ capabilityName))
  | some _ =>
    ({ repository with
        tenantCapabilities :=
          repository.tenantCapabilities.set tenantID
            (writeUsage capabilityName usage
              ((repository.tenantCapabilities tenantID).getD [])) }, none)

/-! ## Package `controlplane` -/

/-- The struct `controlplane.TenantControlPlane`: the repository shared by its two services,
and the resolver. -/
structure TenantControlPlane where
  repository : TenantRepository
  resolver : TenantResolver

def NewTenantControlPlane : TenantControlPlane :=
  { repository := NewTenantRepository, resolver := NewTenantResolver }

def TenantControlPlane.OnboardTenant (cp : TenantControlPlane) (name uuid : String)
    (now : Nat) : TenantControlPlane × Tenant :=
  let res := TenantService.CreateTenant cp.repository name uuid now
  ({ cp with repository := res.1 }, res.2)

def TenantControlPlane.ProvisionCapability (cp : TenantControlPlane) (tenantID : String)
    (capType : CapabilityType) (name : String) (quota : Int) :
    TenantControlPlane × Option String :=
  let res := CapabilityService.EnableCapability cp.repository tenantID capType name quota
  ({ cp with repository := res.1 }, res.2)

def TenantControlPlane.ActivateTenant (cp : TenantControlPlane) (tenantID : String) :
    TenantControlPlane × Option String :=
  let res := TenantService.ActivateTenant cp.repository tenantID
  ({ cp with repository := res.1 }, res.2)

def TenantControlPlane.SuspendTenant (cp : TenantControlPlane) (tenantID : String) :
    TenantControlPlane × Option String :=
  let res := TenantService.SuspendTenant cp.repository tenantID
  ({ cp with repository := res.1 }, res.2)

/-- The method `TenantControlPlane.AuthorizeRequest`. -/
def TenantControlPlane.AuthorizeRequest (cp : TenantControlPlane)
    (tenantID capability : String) (resourceUnits : Int) : Bool :=
  match TenantService.GetTenant cp.repository tenantID with
  | Except.error _ => false
  | Except.ok tenant =>
    if tenant.Status ≠ StatusActive then false
    else CapabilityService.CheckQuota cp.repository tenantID capability resourceUnits

def TenantControlPlane.RecordUsage (cp : TenantControlPlane) (tenantID capability : String)
    (usage : Int) : TenantControlPlane × Option String :=
  let res := CapabilityService.UpdateUsage cp.repository tenantID capability usage
  ({ cp with repository := res.1 }, res.2)

def TenantControlPlane.GetTenant (cp : TenantControlPlane) (tenantID : String) :
    Except String Tenant :=
  TenantService.GetTenant cp.repository tenantID

def TenantControlPlane.GetTenantCapabilities (cp : TenantControlPlane) (tenantID : String) :
    List Capability :=
  CapabilityService.GetCapabilities cp.repository tenantID

def TenantControlPlane.GetResolver (cp : TenantControlPlane) : TenantResolver :=
  cp.resolver

/-! ## Representation invariant and reachable states -/

/-- Every tenant object is stored under its own `TenantID`: `Save` is the only writer of
the tenant map and stores `tenant` at `tenant.TenantID`. -/
def TenantRepository.KeyedByID (r : TenantRepository) : Prop :=
  ∀ k t, r.tenants k = some t → t.TenantID = k

/-- The repository states the two services can produce from the empty repository. -/
inductive TenantRepository.Reachable : TenantRepository → Prop
  | init : TenantRepository.Reachable NewTenantRepository
  | create {r : TenantRepository} (name uuid : String) (now : Nat) :
      TenantRepository.Reachable r →
      TenantRepository.Reachable (TenantService.CreateTenant r name uuid now).1
  | activate {r : TenantRepository} (tenantID : String) :
      TenantRepository.Reachable r →
      TenantRepository.Reachable (TenantService.ActivateTenant r tenantID).1
  | suspend {r : TenantRepository} (tenantID : String) :
      TenantRepository.Reachable r →
      TenantRepository.Reachable (TenantService.SuspendTenant r tenantID).1
  | enable {r : TenantRepository} (tenantID : String) (capType : CapabilityType)
      (name : String) (quota : Int) :
      TenantRepository.Reachable r →
      TenantRepository.Reachable
        (CapabilityService.EnableCapability r tenantID capType name quota).1
  | update {r : TenantRepository} (tenantID capabilityName : String) (usage : Int) :
      TenantRepository.Reachable r →
      TenantRepository.Reachable
        (CapabilityService.UpdateUsage r tenantID capabilityName usage).1

/-! ## Read-only operations with the state they leave behind -/

/-- The method `TenantRepository.FindCapability` together with the repository after the
call: the body takes the read lock and reads `tenantCapabilities`. -/
def TenantRepository.FindCapabilityStep (r : TenantRepository)
    (tenantID capabilityName : String) : TenantRepository × Option Capability :=
  (r, r.FindCapability tenantID capabilityName)

/-- The method `TenantRepository.FindByID` together with the repository after the call. -/
def TenantRepository.FindByIDStep (r : TenantRepository) (tenantID : String) :
    TenantRepository × Option Tenant :=
  (r, r.FindByID tenantID)

/-- The method `TenantService.GetTenant`, threading the repository through its call of
`FindByID`. -/
def TenantService.GetTenantStep (repository : TenantRepository) (tenantID : String) :
    TenantRepository × Except String Tenant :=
  match repository.FindByIDStep tenantID with
  | (repository1, none) => (repository1, Except.error ("tenant not found: " ++ tenantID))
  | (repository1, some tenant) => (repository1, Except.ok tenant)

/-- The method `CapabilityService.CheckQuota`, threading the repository through its call
of `FindCapability`; the reads of `Enabled` and of the quota go through the pointer. -/
def CapabilityService.CheckQuotaStep (repository : TenantRepository)
    (tenantID capabilityName : String) (requestedUsage : Int) : TenantRepository × Bool :=
  match repository.FindCapabilityStep tenantID capabilityName with
  | (repository1, none) => (repository1, false)
  | (repository1, some capability) =>
    if !capability.Enabled then (repository1, false)
    else (repository1, capability.Quota.CanAllocate requestedUsage)

/-- The method `TenantControlPlane.AuthorizeRequest`, threading the repository through
`GetTenant` and `CheckQuota`. -/
def TenantControlPlane.AuthorizeRequestStep (cp : TenantControlPlane)
    (tenantID capability : String) (resourceUnits : Int) : TenantControlPlane × Bool :=
  match TenantService.GetTenantStep cp.repository tenantID with
  | (repository1, Except.error _) => ({ cp with repository := repository1 }, false)
  | (repository1, Except.ok tenant) =>
    if tenant.Status ≠ StatusActive then ({ cp with repository := repository1 }, false)
    else
      let res := CapabilityService.CheckQuotaStep repository1 tenantID capability
        resourceUnits
      ({ cp with repository := res.1 }, res.2)

/-! ## Sequences of operations on the control plane -/

/-- A call of one of the core operations with its arguments; for `onboardTenant` also the
UUID text and the clock reading the call obtains. -/
inductive Op where
  | onboardTenant (name uuid : String) (now : Nat)
  | activateTenant (tenantID : String)
  | suspendTenant (tenantID : String)
  | provisionCapability (tenantID : String) (capType : CapabilityType) (name : String)
      (quota : Int)
  | recordUsage (tenantID capability : String) (usage : Int)
  | checkQuota (tenantID capability : String) (units : Int)
  | authorizeRequest (tenantID capability : String) (units : Int)

/-- The control plane after one operation. -/
def TenantControlPlane.apply (cp : TenantControlPlane) : Op → TenantControlPlane
  | Op.onboardTenant name uuid now => (cp.OnboardTenant name uuid now).1
  | Op.activateTenant tenantID => (cp.ActivateTenant tenantID).1
  | Op.suspendTenant tenantID => (cp.SuspendTenant tenantID).1
  | Op.provisionCapability tenantID capType name quota =>
    (cp.ProvisionCapability tenantID capType name quota).1
  | Op.recordUsage tenantID capability usage => (cp.RecordUsage tenantID capability usage).1
  | Op.checkQuota tenantID capability units =>
    { cp with
      repository :=
        (CapabilityService.CheckQuotaStep cp.repository tenantID capability units).1 }
  | Op.authorizeRequest tenantID capability units =>
    (cp.AuthorizeRequestStep tenantID capability units).1

/-- The control plane after a sequence of operations, first operation first. -/
def TenantControlPlane.run (cp : TenantControlPlane) : List Op → TenantControlPlane
  | [] => cp
  | op :: ops => (cp.apply op).run ops

/-- An `onboardTenant` call is fresh in a state when the identity it generates is not
stored there; the condition is empty for every other operation. -/
def Op.freshIn (cp : TenantControlPlane) : Op → Prop
  | Op.onboardTenant name uuid now =>
    cp.repository.FindByID (cp.OnboardTenant name uuid now).2.TenantID = none
  | _ => True

/-- Every `onboardTenant` call of the sequence is fresh in the state it is made in. -/
def FreshRun (cp : TenantControlPlane) : List Op → Prop
  | [] => True
  | op :: ops => op.freshIn cp ∧ FreshRun (cp.apply op) ops

/-- The usage a `recordUsage` call supplies is not negative; the condition is empty for
every other operation. -/
def Op.usageNonneg : Op → Prop
  | Op.recordUsage _ _ usage => 0 ≤ usage
  | _ => True

/-- The status may follow the status: a self-loop or one of `PROVISIONING → ACTIVE`,
`PROVISIONING → SUSPENDED`, `ACTIVE → SUSPENDED`, `SUSPENDED → ACTIVE`. -/
def AllowedTransition (old new : TenantStatus) : Prop :=
  new = old ∨ (old = StatusProvisioning ∧ new = StatusActive) ∨
    (old = StatusProvisioning ∧ new = StatusSuspended) ∨
    (old = StatusActive ∧ new = StatusSuspended) ∨
    (old = StatusSuspended ∧ new = StatusActive)

/-- Every stored tenant has one of the three statuses the services assign. -/
def TenantRepository.StatusesAssigned (r : TenantRepository) : Prop :=
  ∀ k t, r.tenants k = some t →
    t.Status = StatusProvisioning ∨ t.Status = StatusActive ∨ t.Status = StatusSuspended

/-- Every stored capability has a usage counter that is not negative. -/
def TenantRepository.UsageNonneg (r : TenantRepository) : Prop :=
  ∀ k caps, r.tenantCapabilities k = some caps → ∀ cap ∈ caps, 0 ≤ cap.Quota.CurrentUsage

/-- The fields of a capability that `UpdateUsage` does not assign: all but
`Quota.CurrentUsage`. -/
def Capability.fixedPart (c : Capability) :
    CapabilityType × String × Bool × List (String × String) × Int × String :=
  (c.CapType, c.Name, c.Enabled, c.Config, c.Quota.MaxLimit, c.Quota.Unit)

/-- The capability sequence of tenant `T` is `pre`, then `first`, then `second`, where
`pre` and `first` have the fixed parts of `old` and `base`. -/
def TenantRepository.ShadowedAt (r : TenantRepository) (T : String) (old : List Capability)
    (base second : Capability) (pre : List Capability) (first : Capability) : Prop :=
  r.tenantCapabilities T = some (pre ++ [first, second]) ∧
    pre.map Capability.fixedPart = old.map Capability.fixedPart ∧
    first.fixedPart = base.fixedPart

/-! ## Example states -/

/-- An active tenant `"tenant-a"` with one enabled capability `"storage"` (limit 1000,
usage 250) and a resolver in which `"k1"` and `"demo"` are registered to it. -/
def exampleTenant : Tenant :=
  { TenantID := "tenant-a", Name := "Demo Corp", Status := StatusActive,
    CreatedAt := 0, Metadata := [] }

def exampleCapability : Capability :=
  { CapType := CapabilityStorage, Name := "storage", Enabled := true, Config := [],
    Quota := { MaxLimit := 1000, CurrentUsage := 250, Unit := "units" } }

def exampleRepository : TenantRepository :=
  { tenants := GoMap.empty.set "tenant-a" exampleTenant
    tenantCapabilities := GoMap.empty.set "tenant-a" [exampleCapability] }

def exampleResolver : TenantResolver :=
  (NewTenantResolver.RegisterAPIKey "tenant-a" "k1").RegisterSubdomain "tenant-a" "demo"

/-- A codec that rejects every payload. -/
def rejectingCodec : Codec :=
  { DecodeString := fun _ => none, Unmarshal := fun _ => none }

/-- A codec that accepts one payload, the claims object whose only field `tenant_id` is the
string `t-1`, under its unpadded base64url text. -/
def exampleCodec : Codec :=
  { DecodeString := fun s =>
      if s = "eyJ0ZW5hbnRfaWQiOiJ0LTEifQ" then
        some [123, 34, 116, 101, 110, 97, 110, 116, 95, 105, 100, 34, 58, 34, 116, 45, 49,
          34, 125]
      else none
    Unmarshal := fun payload =>
      if payload = [123, 34, 116, 101, 110, 97, 110, 116, 95, 105, 100, 34, 58, 34, 116,
          45, 49, 34, 125] then
        some (GoMap.empty.set "tenant_id" (JSONValue.str "t-1"))
      else none }

/-- Two UUID texts that differ and share their first eight characters. -/
def uuidOne : String := "3f2a9c1e-0000-4000-8000-000000000001"

def uuidTwo : String := "3f2a9c1e-1111-4111-8111-111111111111"

/-! ## Lemmas on the resolver -/

theorem resolveLoop_nil (lib : Codec) (r : TenantResolver) (request : RequestContext) :
    r.resolveLoop lib request [] = none := rfl

theorem resolveLoop_cons (lib : Codec) (r : TenantResolver) (request : RequestContext)
    (strategy : IdentificationStrategy) (rest : List IdentificationStrategy) :
    r.resolveLoop lib request (strategy :: rest) =
      if (r.tryStrategy lib strategy request).2 = true then
        some { TenantID := (r.tryStrategy lib strategy request).1, Strategy := strategy,
               Metadata := [] }
      else r.resolveLoop lib request rest := by
  rcases hres : r.tryStrategy lib strategy request with ⟨tenantID, ok⟩
  cases ok <;> simp [TenantResolver.resolveLoop, hres]

theorem resolveLoop_eq_none_iff (lib : Codec) (r : TenantResolver) (request : RequestContext)
    (order : List IdentificationStrategy) :
    r.resolveLoop lib request order = none ↔
      ∀ s ∈ order, (r.tryStrategy lib s request).2 = false := by
  induction order with
  | nil => simp [resolveLoop_nil]
  | cons s rest ih =>
    rw [resolveLoop_cons]
    by_cases hs : (r.tryStrategy lib s request).2 = true
    · simp [hs]
    · simp [hs, ih]

theorem resolveLoop_strategy_hit (lib : Codec) (r : TenantResolver) (request : RequestContext)
    (order : List IdentificationStrategy) (ctx : TenantContext)
    (h : r.resolveLoop lib request order = some ctx) :
    r.tryStrategy lib ctx.Strategy request = (ctx.TenantID, true) := by
  induction order with
  | nil => simp [resolveLoop_nil] at h
  | cons s rest ih =>
    rw [resolveLoop_cons] at h
    by_cases hs : (r.tryStrategy lib s request).2 = true
    · simp only [hs, if_true, Option.some.injEq] at h
      subst h
      exact Prod.ext rfl hs
    · simp only [hs, if_false] at h
      exact ih h

theorem RegisterAPIKey_order (r : TenantResolver) (tenantID apiKey : String) :
    (r.RegisterAPIKey tenantID apiKey).resolutionOrder = r.resolutionOrder := rfl

theorem RegisterSubdomain_order (r : TenantResolver) (tenantID subdomain : String) :
    (r.RegisterSubdomain tenantID subdomain).resolutionOrder = r.resolutionOrder := rfl

theorem RegisterCustomDomain_order (r : TenantResolver) (tenantID domain : String) :
    (r.RegisterCustomDomain tenantID domain).resolutionOrder = r.resolutionOrder := rfl

theorem RegisterAPIKey_registered (r : TenantResolver) (tenantID apiKey : String) :
    (r.RegisterAPIKey tenantID apiKey).apiKeyIdentifier.apiKeyToTenant apiKey = some tenantID := by
  simp [TenantResolver.RegisterAPIKey, APIKeyIdentifier.RegisterAPIKey, GoMap.set]

/-! ## C1: precedence of the resolver -/

/-- C1: with the resolution order that `NewTenantResolver` installs, `Resolve` returns the
tenant id and the tag of the first of Header, JWT, API-Key, Custom-Domain, Subdomain, Path
whose strategy matches, and it returns `nil, false` exactly when all six miss. -/
theorem C1_resolve_first_match (lib : Codec) (r : TenantResolver) (request : RequestContext)
    (horder : r.resolutionOrder =
      [StrategyHeader, StrategyJWT, StrategyAPIKey, StrategyCustomDomain,
        StrategySubdomain, StrategyPath]) :
    (r.Resolve lib request =
      if (r.tryStrategy lib StrategyHeader request).2 = true then
        some ⟨(r.tryStrategy lib StrategyHeader request).1, StrategyHeader, []⟩
      else if (r.tryStrategy lib StrategyJWT request).2 = true then
        some ⟨(r.tryStrategy lib StrategyJWT request).1, StrategyJWT, []⟩
      else if (r.tryStrategy lib StrategyAPIKey request).2 = true then
        some ⟨(r.tryStrategy lib StrategyAPIKey request).1, StrategyAPIKey, []⟩
      else if (r.tryStrategy lib StrategyCustomDomain request).2 = true then
        some ⟨(r.tryStrategy lib StrategyCustomDomain request).1, StrategyCustomDomain, []⟩
      else if (r.tryStrategy lib StrategySubdomain request).2 = true then
        some ⟨(r.tryStrategy lib StrategySubdomain request).1, StrategySubdomain, []⟩
      else if (r.tryStrategy lib StrategyPath request).2 = true then
        some ⟨(r.tryStrategy lib StrategyPath request).1, StrategyPath, []⟩
      else none) ∧
    (r.Resolve lib request = none ↔
      (r.tryStrategy lib StrategyHeader request).2 = false ∧
      (r.tryStrategy lib StrategyJWT request).2 = false ∧
      (r.tryStrategy lib StrategyAPIKey request).2 = false ∧
      (r.tryStrategy lib StrategyCustomDomain request).2 = false ∧
      (r.tryStrategy lib StrategySubdomain request).2 = false ∧
      (r.tryStrategy lib StrategyPath request).2 = false) := by
  constructor
  · simp only [TenantResolver.Resolve, horder, resolveLoop_cons, resolveLoop_nil]
  · simp only [TenantResolver.Resolve, horder, resolveLoop_eq_none_iff]
    simp

/-- C1 at the example resolver: a request with host `demo.platform.io` and nothing else
is resolved by the Subdomain strategy. -/
theorem C1_resolve_first_match_witness :
    exampleResolver.Resolve rejectingCodec
        { Host := "demo.platform.io", Path := "/", Headers := GoMap.empty } =
      some ⟨"tenant-a", StrategySubdomain, []⟩ := by
  have h := (C1_resolve_first_match rejectingCodec exampleResolver
    { Host := "demo.platform.io", Path := "/", Headers := GoMap.empty } rfl).1
  rw [h]
  decide

/-! ## Lemmas on `strings.Split` -/

theorem splitAux_length (sep : Char) (cs cur : List Char) :
    (splitAux sep cs cur).length = cs.count sep + 1 := by
  induction cs generalizing cur with
  | nil => simp [splitAux]
  | cons c rest ih =>
    by_cases hc : c = sep
    · subst hc
      simp [splitAux, ih]
    · have hc' : ¬ (c == sep) = true := by simpa using hc
      simp [splitAux, hc, ih, List.count_cons, hc']

/-- The number of pieces `strings.Split` returns is one more than the number of separators. -/
theorem Split_length (s : String) (sep : Char) :
    (Split s sep).length = s.data.count sep + 1 := by
  simp [Split, splitAux_length]

/-! ## C8, C9, C10: single strategies through the resolver -/

/-- C8: when the header map of the request holds only `X-Api-Key = k`, then for any host
and path `Resolve` finds tenant `T` with strategy `API_KEY` as soon as the API-Key
registry maps `k` to `T`; this is the case after `RegisterAPIKey(T, k)`, also when `k` was
registered to another tenant before. -/
theorem C8_resolve_api_key_only (lib : Codec) (r : TenantResolver) (k T host path : String)
    (horder : r.resolutionOrder =
      [StrategyHeader, StrategyJWT, StrategyAPIKey, StrategyCustomDomain,
        StrategySubdomain, StrategyPath]) :
    (r.apiKeyIdentifier.apiKeyToTenant k = some T →
      r.Resolve lib { Host := host, Path := path, Headers := GoMap.empty.set "X-Api-Key" k } =
        some ⟨T, StrategyAPIKey, []⟩) ∧
    (∀ T0, ((r.RegisterAPIKey T0 k).RegisterAPIKey T k).Resolve lib
        { Host := host, Path := path, Headers := GoMap.empty.set "X-Api-Key" k } =
      some ⟨T, StrategyAPIKey, []⟩) := by
  have hmain : ∀ r' : TenantResolver, r'.resolutionOrder = r.resolutionOrder →
      r'.apiKeyIdentifier.apiKeyToTenant k = some T →
      r'.Resolve lib { Host := host, Path := path, Headers := GoMap.empty.set "X-Api-Key" k } =
        some ⟨T, StrategyAPIKey, []⟩ := by
    intro r' horder' hreg
    simp +decide [TenantResolver.Resolve, horder', horder, resolveLoop_cons,
      TenantResolver.tryStrategy, HeaderIdentifier.IdentifyTenant,
      APIKeyIdentifier.IdentifyTenant, GoMap.lookup, GoMap.set, GoMap.empty, hreg]
  exact ⟨hmain r rfl, fun T0 => hmain _ rfl (RegisterAPIKey_registered _ T k)⟩

/-- C8 at the example resolver, where `"k1"` was registered to `"tenant-a"`. -/
theorem C8_resolve_api_key_only_witness :
    exampleResolver.Resolve rejectingCodec
        { Host := "platform.io", Path := "/", Headers := GoMap.empty.set "X-Api-Key" "k1" } =
      some ⟨"tenant-a", StrategyAPIKey, []⟩ :=
  (C8_resolve_api_key_only rejectingCodec exampleResolver "k1" "tenant-a" "platform.io" "/"
    rfl).1 (by decide)

/-- C9: when the header map holds the key `X-Tenant-Id` with value `v`, `Resolve` finds
tenant `v` with strategy `HEADER`, whatever the other headers, the host, the path and the
registries. -/
theorem C9_resolve_header_first (lib : Codec) (r : TenantResolver) (request : RequestContext)
    (v : String)
    (horder : r.resolutionOrder =
      [StrategyHeader, StrategyJWT, StrategyAPIKey, StrategyCustomDomain,
        StrategySubdomain, StrategyPath])
    (hheader : request.Headers "X-Tenant-Id" = some v) :
    r.Resolve lib request = some ⟨v, StrategyHeader, []⟩ := by
  simp [TenantResolver.Resolve, horder, resolveLoop_cons, TenantResolver.tryStrategy,
    HeaderIdentifier.IdentifyTenant, GoMap.lookup, hheader]

/-- C9 at the example resolver: the header wins over the registered API key `"k1"`. -/
theorem C9_resolve_header_first_witness :
    exampleResolver.Resolve rejectingCodec
        { Host := "demo.platform.io", Path := "/tenants/t9",
          Headers := (GoMap.empty.set "X-Api-Key" "k1").set "X-Tenant-Id" "tenant-b" } =
      some ⟨"tenant-b", StrategyHeader, []⟩ :=
  C9_resolve_header_first rejectingCodec exampleResolver _ "tenant-b" rfl (by decide)

/-- C10: for a host that `strings.Split(host, ".")` cuts into at most two labels, the
Subdomain strategy returns `"", false` for every registry, and no result of `Resolve`
carries the tag `SUBDOMAIN`. -/
theorem C10_subdomain_needs_three_labels (lib : Codec) (r : TenantResolver)
    (i : SubdomainIdentifier) (host path : String) (headers : GoMap String)
    (hlabels : (Split host '.').length ≤ 2) :
    i.IdentifyTenant host = ("", false) ∧
    ∀ ctx, r.Resolve lib { Host := host, Path := path, Headers := headers } = some ctx →
      ctx.Strategy ≠ StrategySubdomain := by
  have hsub : ∀ j : SubdomainIdentifier, j.IdentifyTenant host = ("", false) := by
    intro j
    have hnot : ¬ (Split host '.').length > 2 := by omega
    simp [SubdomainIdentifier.IdentifyTenant, extractSubdomain, hnot]
  refine ⟨hsub i, ?_⟩
  intro ctx hctx htag
  have hhit := resolveLoop_strategy_hit lib r _ _ ctx hctx
  rw [htag] at hhit
  have hmiss : r.tryStrategy lib StrategySubdomain
      { Host := host, Path := path, Headers := headers } = ("", false) := by
    simp +decide [TenantResolver.tryStrategy, hsub]
  rw [hmiss] at hhit
  simp at hhit

/-- C10 at host `platform.io`, with `"platform"` itself registered as a subdomain. -/
theorem C10_subdomain_needs_three_labels_witness :
    (NewSubdomainIdentifier.RegisterSubdomain "tenant-a" "platform").IdentifyTenant
        "platform.io" = ("", false) :=
  (C10_subdomain_needs_three_labels rejectingCodec
    (NewTenantResolver.RegisterSubdomain "tenant-a" "platform")
    (NewSubdomainIdentifier.RegisterSubdomain "tenant-a" "platform")
    "platform.io" "/" GoMap.empty (by decide)).1

/-! ## Lemmas on the repository and the quota arithmetic -/

theorem findByName_eq_none_iff (name : String) (caps : List Capability) :
    findByName name caps = none ↔ ∀ cap ∈ caps, cap.Name ≠ name := by
  induction caps with
  | nil => simp [findByName]
  | cons c rest ih => by_cases hc : c.Name = name <;> simp [findByName, hc, ih]

theorem findByName_first (name : String) (pre : List Capability) (cap : Capability)
    (post : List Capability) (hpre : ∀ c ∈ pre, c.Name ≠ name) (hcap : cap.Name = name) :
    findByName name (pre ++ cap :: post) = some cap := by
  induction pre with
  | nil => simp [findByName, hcap]
  | cons c rest ih =>
    have hc : c.Name ≠ name := hpre c (List.mem_cons_self c rest)
    rw [List.cons_append, findByName, if_neg hc]
    exact ih (fun c' hc' => hpre c' (List.mem_cons_of_mem c hc'))

theorem writeUsage_first (name : String) (usage : Int) (pre : List Capability)
    (cap : Capability) (post : List Capability) (hpre : ∀ c ∈ pre, c.Name ≠ name)
    (hcap : cap.Name = name) :
    writeUsage name usage (pre ++ cap :: post) =
      pre ++ { cap with Quota := { cap.Quota with CurrentUsage := usage } } :: post := by
  induction pre with
  | nil => simp [writeUsage, hcap]
  | cons c rest ih =>
    have hc : c.Name ≠ name := hpre c (List.mem_cons_self c rest)
    rw [List.cons_append, writeUsage, if_neg hc,
      ih (fun c' hc' => hpre c' (List.mem_cons_of_mem c hc')), List.cons_append]

theorem wrapInt64_of_isInt64 (x : Int) (hx : IsInt64 x) : wrapInt64 x = x := by
  unfold IsInt64 at hx
  unfold wrapInt64
  omega

theorem tenantNotFound_ne_mustBeActive (tenantID : String) :
    "tenant not found: " ++ tenantID ≠ "tenant must be active to enable capabilities" := by
  intro h
  have h8 := congrArg (fun s : String => s.data.take 8) h
  simp [String.data_append] at h8

theorem Save_keyedByID (r : TenantRepository) (tenant : Tenant) (hkeys : r.KeyedByID) :
    (r.Save tenant).KeyedByID := by
  intro k t hk
  simp only [TenantRepository.Save, GoMap.set] at hk
  by_cases hkt : k = tenant.TenantID
  · simp only [hkt, if_true, Option.some.injEq] at hk
    rw [← hk, hkt]
  · simp only [hkt, if_false] at hk
    exact hkeys k t hk

theorem Reachable_keyedByID (r : TenantRepository) (hr : r.Reachable) : r.KeyedByID := by
  induction hr with
  | init => intro k t hk; simp [NewTenantRepository, GoMap.empty] at hk
  | create name uuid now _ ih => exact Save_keyedByID _ _ ih
  | @activate r0 tenantID _ ih =>
    unfold TenantService.ActivateTenant
    cases hfind : r0.FindByID tenantID with
    | none => exact ih
    | some tenant => exact Save_keyedByID _ _ ih
  | @suspend r0 tenantID _ ih =>
    unfold TenantService.SuspendTenant
    cases hfind : r0.FindByID tenantID with
    | none => exact ih
    | some tenant => exact Save_keyedByID _ _ ih
  | @enable r0 tenantID capType name quota _ ih =>
    unfold CapabilityService.EnableCapability
    cases hfind : r0.FindByID tenantID with
    | none => exact ih
    | some tenant =>
      by_cases hst : tenant.Status = StatusActive
      · simpa [hst, TenantRepository.AddCapability, TenantRepository.KeyedByID] using ih
      · simpa [hst] using ih
  | @update r0 tenantID capabilityName usage _ ih =>
    unfold CapabilityService.UpdateUsage
    cases hfind : r0.FindCapability tenantID capabilityName with
    | none => exact ih
    | some cap => simpa [TenantRepository.KeyedByID] using ih

theorem exampleRepository_keyedByID : exampleRepository.KeyedByID := by
  intro k t hk
  simp only [exampleRepository, GoMap.set, GoMap.empty] at hk
  by_cases hka : k = "tenant-a"
  · simp only [hka, if_true, Option.some.injEq] at hk
    rw [← hk, hka]; rfl
  · simp [hka] at hk

/-! ## C2, C3: quota check and authorization -/

/-- C2: `CheckQuota` is false when no capability of the tenant has the name, and false when
the first capability with the name is disabled; when that capability is enabled and
`CurrentUsage + requested` fits an `int64`, it is true exactly when
`CurrentUsage + requested ≤ MaxLimit`. -/
theorem C2_check_quota (r : TenantRepository) (tenantID name : String) (requested : Int) :
    ((∀ cap ∈ r.GetCapabilities tenantID, cap.Name ≠ name) →
      CapabilityService.CheckQuota r tenantID name requested = false) ∧
    (∀ pre cap post, r.GetCapabilities tenantID = pre ++ cap :: post →
      (∀ c ∈ pre, c.Name ≠ name) → cap.Name = name →
      (cap.Enabled = false → CapabilityService.CheckQuota r tenantID name requested = false) ∧
      (cap.Enabled = true → IsInt64 (cap.Quota.CurrentUsage + requested) →
        (CapabilityService.CheckQuota r tenantID name requested = true ↔
          cap.Quota.CurrentUsage + requested ≤ cap.Quota.MaxLimit))) := by
  constructor
  · intro hnone
    have hfind : r.FindCapability tenantID name = none :=
      (findByName_eq_none_iff name _).2 hnone
    simp [CapabilityService.CheckQuota, hfind]
  · intro pre cap post hcaps hpre hcap
    have hfind : r.FindCapability tenantID name = some cap := by
      unfold TenantRepository.FindCapability
      unfold TenantRepository.GetCapabilities at hcaps
      rw [hcaps]
      exact findByName_first name pre cap post hpre hcap
    constructor
    · intro hdis
      simp [CapabilityService.CheckQuota, hfind, hdis]
    · intro hen hfit
      simp [CapabilityService.CheckQuota, hfind, hen, ResourceQuota.CanAllocate,
        wrapInt64_of_isInt64 _ hfit]

/-- C2 at the example repository: with usage 250 and limit 1000, 750 more units are
within the quota. -/
theorem C2_check_quota_witness :
    CapabilityService.CheckQuota exampleRepository "tenant-a" "storage" 750 = true :=
  (((C2_check_quota exampleRepository "tenant-a" "storage" 750).2
    [] exampleCapability [] (by decide) (by decide) (by decide)).2
      (by decide) (by decide)).2 (by decide)

/-- C3: `AuthorizeRequest` is true exactly when the tenant is stored, its status is
`ACTIVE` and `CheckQuota` is true; for a tenant id that is not stored it is false. -/
theorem C3_authorize_request (cp : TenantControlPlane) (tenantID capability : String)
    (units : Int) :
    (cp.AuthorizeRequest tenantID capability units = true ↔
      ∃ tenant, cp.repository.FindByID tenantID = some tenant ∧
        tenant.Status = StatusActive ∧
        CapabilityService.CheckQuota cp.repository tenantID capability units = true) ∧
    (cp.repository.FindByID tenantID = none →
      cp.AuthorizeRequest tenantID capability units = false) := by
  unfold TenantControlPlane.AuthorizeRequest TenantService.GetTenant
  cases hfind : cp.repository.FindByID tenantID with
  | none => simp
  | some tenant =>
    by_cases hst : tenant.Status = StatusActive <;> simp [hst]

/-- C3 at the example repository: the unknown id `"tenant-z"` is not authorized. -/
theorem C3_authorize_request_witness :
    TenantControlPlane.AuthorizeRequest
      { repository := exampleRepository, resolver := exampleResolver }
      "tenant-z" "storage" 1 = false :=
  (C3_authorize_request { repository := exampleRepository, resolver := exampleResolver }
    "tenant-z" "storage" 1).2 (by decide)

/-! ## C4, C5: provisioning and usage recording -/

/-- C4: `EnableCapability` returns the not-found error exactly when the tenant is not
stored, the "tenant must be active" error exactly when the tenant is stored with a status
other than `ACTIVE`, and no error exactly when the tenant is stored with status `ACTIVE`;
whenever it returns an error the repository is the one it was given. -/
theorem C4_enable_capability_errors (r : TenantRepository) (tenantID : String)
    (capType : CapabilityType) (name : String) (quota : Int) :
    ((CapabilityService.EnableCapability r tenantID capType name quota).2 =
        some ("tenant not found: " ++ tenantID) ↔ r.FindByID tenantID = none) ∧
    ((CapabilityService.EnableCapability r tenantID capType name quota).2 =
        some "tenant must be active to enable capabilities" ↔
      ∃ tenant, r.FindByID tenantID = some tenant ∧ tenant.Status ≠ StatusActive) ∧
    ((CapabilityService.EnableCapability r tenantID capType name quota).2 = none ↔
      ∃ tenant, r.FindByID tenantID = some tenant ∧ tenant.Status = StatusActive) ∧
    ((CapabilityService.EnableCapability r tenantID capType name quota).2 ≠ none →
      (CapabilityService.EnableCapability r tenantID capType name quota).1 = r) := by
  unfold CapabilityService.EnableCapability
  cases hfind : r.FindByID tenantID with
  | none => simp [tenantNotFound_ne_mustBeActive]
  | some tenant =>
    by_cases hst : tenant.Status = StatusActive
    · simp [hst]
    · simp [hst, Ne.symm (tenantNotFound_ne_mustBeActive tenantID)]

/-- C4 at the example repository: provisioning for the unknown id `"tenant-z"` fails and
leaves the repository as it was. -/
theorem C4_enable_capability_errors_witness :
    (CapabilityService.EnableCapability exampleRepository "tenant-z" CapabilityStorage
      "storage" 10).1 = exampleRepository :=
  (C4_enable_capability_errors exampleRepository "tenant-z" CapabilityStorage
    "storage" 10).2.2.2 (by decide)

/-- C5: `UpdateUsage` returns the not-found error exactly when no capability of the tenant
has the name, and then the repository is the one it was given; otherwise it returns no
error, and the tenant's capability sequence differs from the old one only in the first
capability with the name, whose `CurrentUsage` is the supplied value and whose other fields
are the old ones; the tenant map and every other tenant's sequence are the old ones.
`RecordUsage` of the facade is this operation on its repository. -/
theorem C5_update_usage (r : TenantRepository) (tenantID name : String) (usage : Int) :
    ((CapabilityService.UpdateUsage r tenantID name usage).2 =
        some ("capability not found: " ++ name) ↔
      ∀ cap ∈ r.GetCapabilities tenantID, cap.Name ≠ name) ∧
    ((CapabilityService.UpdateUsage r tenantID name usage).2 ≠ none →
      (CapabilityService.UpdateUsage r tenantID name usage).1 = r) ∧
    (∀ pre cap post, r.GetCapabilities tenantID = pre ++ cap :: post →
      (∀ c ∈ pre, c.Name ≠ name) → cap.Name = name →
      (CapabilityService.UpdateUsage r tenantID name usage).2 = none ∧
      (CapabilityService.UpdateUsage r tenantID name usage).1.GetCapabilities tenantID =
        pre ++ { CapType := cap.CapType, Name := cap.Name, Enabled := cap.Enabled,
                 Config := cap.Config,
                 Quota := { MaxLimit := cap.Quota.MaxLimit, CurrentUsage := usage,
                            Unit := cap.Quota.Unit } } :: post ∧
      (∀ other, other ≠ tenantID →
        (CapabilityService.UpdateUsage r tenantID name usage).1.tenantCapabilities other =
          r.tenantCapabilities other) ∧
      (CapabilityService.UpdateUsage r tenantID name usage).1.tenants = r.tenants) ∧
    (∀ resolver,
      (TenantControlPlane.RecordUsage { repository := r, resolver := resolver }
          tenantID name usage) =
        ({ repository := (CapabilityService.UpdateUsage r tenantID name usage).1,
           resolver := resolver },
         (CapabilityService.UpdateUsage r tenantID name usage).2)) := by
  refine ⟨?_, ?_, ?_, ?_⟩
  · rw [← findByName_eq_none_iff]
    unfold CapabilityService.UpdateUsage TenantRepository.GetCapabilities
    cases hfind : r.FindCapability tenantID name with
    | none => simpa [TenantRepository.FindCapability] using hfind
    | some cap =>
      have hfind2 : findByName name ((r.tenantCapabilities tenantID).getD []) = some cap :=
        hfind
      simp [hfind2]
  · unfold CapabilityService.UpdateUsage
    cases hfind : r.FindCapability tenantID name with
    | none => simp
    | some cap => simp
  · intro pre cap post hcaps hpre hcap
    unfold TenantRepository.GetCapabilities at hcaps
    have hfind : r.FindCapability tenantID name = some cap := by
      unfold TenantRepository.FindCapability
      rw [hcaps]
      exact findByName_first name pre cap post hpre hcap
    unfold CapabilityService.UpdateUsage
    simp only [hfind, hcaps, writeUsage_first name usage pre cap post hpre hcap]
    refine ⟨trivial, ?_, ?_, trivial⟩
    · simp [TenantRepository.GetCapabilities, GoMap.set]
    · intro other hother
      simp [GoMap.set, hother]
  · intro resolver
    rfl

/-- C5 at the example repository: recording the absolute usage 5000, above the limit 1000,
succeeds. -/
theorem C5_update_usage_witness :
    (CapabilityService.UpdateUsage exampleRepository "tenant-a" "storage" 5000).2 = none :=
  ((C5_update_usage exampleRepository "tenant-a" "storage" 5000).2.2.1
    [] exampleCapability [] (by decide) (by decide) (by decide)).1

/-! ## C6, C7: lifecycle transitions -/

theorem Save_getCapabilities (r : TenantRepository) (tenant : Tenant) (k : String) :
    (r.Save tenant).GetCapabilities k = r.GetCapabilities k := by
  unfold TenantRepository.Save TenantRepository.GetCapabilities
  cases hcaps : r.tenantCapabilities tenant.TenantID with
  | some caps => rfl
  | none =>
    by_cases hk : k = tenant.TenantID
    · simp [GoMap.set, hk, hcaps]
    · simp [GoMap.set, hk]

theorem Save_findByID_self (r : TenantRepository) (tenant : Tenant) :
    (r.Save tenant).FindByID tenant.TenantID = some tenant := by
  simp [TenantRepository.Save, TenantRepository.FindByID, GoMap.set]

theorem Save_findByID_other (r : TenantRepository) (tenant : Tenant) (k : String)
    (hk : k ≠ tenant.TenantID) : (r.Save tenant).FindByID k = r.FindByID k := by
  simp [TenantRepository.Save, TenantRepository.FindByID, GoMap.set, hk]

theorem GoMap_set_self {β : Type} (m : GoMap β) (k : String) (v : β) :
    m.set k v k = some v := by
  simp [GoMap.set]

theorem GoMap_set_idem {β : Type} (m : GoMap β) (k : String) (v : β) :
    (m.set k v).set k v = m.set k v := by
  funext k'
  by_cases hk : k' = k <;> simp [GoMap.set, hk]

theorem Save_Save_same (r : TenantRepository) (tenant : Tenant) :
    (r.Save tenant).Save tenant = r.Save tenant := by
  unfold TenantRepository.Save
  cases hcaps : r.tenantCapabilities tenant.TenantID with
  | some caps => simp only [hcaps, GoMap_set_idem]
  | none => simp only [hcaps, GoMap_set_self, GoMap_set_idem]

/-- C6: on a repository that stores every tenant under its own id, `ActivateTenant`
returns the not-found error exactly when no tenant is stored under the id; otherwise it
returns no error, whatever the previous status, and afterwards the tenant stored under
the id is the old one with status `ACTIVE` (same id, name, creation time and metadata),
the tenants under all other ids are the old ones, and every capability sequence is the
old one. -/
theorem C6_activate_tenant (r : TenantRepository) (tenantID : String)
    (hkeys : r.KeyedByID) :
    ((TenantService.ActivateTenant r tenantID).2 =
        some ("tenant not found: " ++ tenantID) ↔ r.FindByID tenantID = none) ∧
    (∀ tenant, r.FindByID tenantID = some tenant →
      (TenantService.ActivateTenant r tenantID).2 = none ∧
      (TenantService.ActivateTenant r tenantID).1.FindByID tenantID =
        some { TenantID := tenant.TenantID, Name := tenant.Name, Status := StatusActive,
               CreatedAt := tenant.CreatedAt, Metadata := tenant.Metadata } ∧
      (∀ k, k ≠ tenantID →
        (TenantService.ActivateTenant r tenantID).1.FindByID k = r.FindByID k) ∧
      (∀ k, (TenantService.ActivateTenant r tenantID).1.GetCapabilities k =
        r.GetCapabilities k)) := by
  unfold TenantService.ActivateTenant
  cases hfind : r.FindByID tenantID with
  | none => simp
  | some tenant =>
    have hid : tenant.TenantID = tenantID := hkeys tenantID tenant hfind
    refine ⟨by simp, ?_⟩
    intro tenant' htenant'
    simp only [Option.some.injEq] at htenant'
    subst htenant'
    refine ⟨rfl, ?_, ?_, ?_⟩
    · have hself := Save_findByID_self r
        { tenant with Status := StatusActive }
      simpa [hid] using hself
    · intro k hk
      exact Save_findByID_other r _ k (by simpa [hid] using hk)
    · intro k
      exact Save_getCapabilities r _ k

/-- C6 at the example repository: activating the stored tenant `"tenant-a"` succeeds. -/
theorem C6_activate_tenant_witness :
    (TenantService.ActivateTenant exampleRepository "tenant-a").2 = none :=
  ((C6_activate_tenant exampleRepository "tenant-a" exampleRepository_keyedByID).2
    exampleTenant (by decide)).1

/-- C7: on a repository that stores every tenant under its own id, `SuspendTenant` returns
the not-found error exactly when no tenant is stored under the id; otherwise it returns no
error and the tenant stored under the id afterwards is the old one with status
`SUSPENDED`, and a second call returns no error and the very same repository. -/
theorem C7_suspend_tenant (r : TenantRepository) (tenantID : String)
    (hkeys : r.KeyedByID) :
    ((TenantService.SuspendTenant r tenantID).2 =
        some ("tenant not found: " ++ tenantID) ↔ r.FindByID tenantID = none) ∧
    (∀ tenant, r.FindByID tenantID = some tenant →
      (TenantService.SuspendTenant r tenantID).2 = none ∧
      (TenantService.SuspendTenant r tenantID).1.FindByID tenantID =
        some { TenantID := tenant.TenantID, Name := tenant.Name, Status := StatusSuspended,
               CreatedAt := tenant.CreatedAt, Metadata := tenant.Metadata } ∧
      TenantService.SuspendTenant (TenantService.SuspendTenant r tenantID).1 tenantID =
        ((TenantService.SuspendTenant r tenantID).1, none)) := by
  cases hfind : r.FindByID tenantID with
  | none => simp [TenantService.SuspendTenant, hfind]
  | some tenant =>
    have hid : tenant.TenantID = tenantID := hkeys tenantID tenant hfind
    have hfirst : TenantService.SuspendTenant r tenantID =
        (r.Save { tenant with Status := StatusSuspended }, none) := by
      simp [TenantService.SuspendTenant, hfind]
    have hself : (r.Save { tenant with Status := StatusSuspended }).FindByID tenantID =
        some { tenant with Status := StatusSuspended } := by
      have h := Save_findByID_self r { tenant with Status := StatusSuspended }
      simpa [hid] using h
    refine ⟨by simp [hfirst], ?_⟩
    intro tenant' htenant'
    simp only [Option.some.injEq] at htenant'
    subst htenant'
    rw [hfirst]
    refine ⟨rfl, hself, ?_⟩
    show TenantService.SuspendTenant (r.Save { tenant with Status := StatusSuspended })
      tenantID = _
    unfold TenantService.SuspendTenant
    rw [hself]
    simp only [Save_Save_same]

/-- C7 at the example repository: suspending `"tenant-a"` twice gives the state of the
first suspension. -/
theorem C7_suspend_tenant_witness :
    TenantService.SuspendTenant
        (TenantService.SuspendTenant exampleRepository "tenant-a").1 "tenant-a" =
      ((TenantService.SuspendTenant exampleRepository "tenant-a").1, none) :=
  ((C7_suspend_tenant exampleRepository "tenant-a" exampleRepository_keyedByID).2
    exampleTenant (by decide)).2.2

/-! ## C11, C12: the Subdomain and Path strategies -/

theorem splitAux_head (sep : Char) (cs cur : List Char) :
    (splitAux sep cs cur).head? =
      some (cur.reverse ++ cs.takeWhile (fun c => decide (c ≠ sep))) := by
  induction cs generalizing cur with
  | nil => simp [splitAux]
  | cons c rest ih =>
    by_cases hc : c = sep
    · simp [splitAux, hc]
    · simp [splitAux, hc, ih]

/-- The first piece `strings.Split` returns is the text before the first separator. -/
theorem Split_first (s : String) (sep : Char) :
    (Split s sep).getD 0 "" = String.mk (s.data.takeWhile (fun c => decide (c ≠ sep))) := by
  have h := splitAux_head sep s.data []
  unfold Split
  cases hsplit : splitAux sep s.data [] with
  | nil => simp [hsplit] at h
  | cons first rest =>
    rw [hsplit] at h
    simp only [List.head?_cons, Option.some.injEq, List.reverse_nil, List.nil_append] at h
    simp [h]

/-- C11, as the code has it: for a host of more than two labels whose first label (the
text before the first `.`) is not empty, the Subdomain strategy returns the registry lookup
of that label, found with `T` when it is registered to `T` and not found when it is not
registered; when the first label is empty the strategy returns not found. -/
theorem C11_subdomain_first_label (i : SubdomainIdentifier) (host : String)
    (hlabels : (Split host '.').length > 2) :
    (String.mk (host.data.takeWhile (fun c => decide (c ≠ '.'))) ≠ "" →
      i.IdentifyTenant host =
        i.subdomainToTenant.lookup
          (String.mk (host.data.takeWhile (fun c => decide (c ≠ '.')))) ∧
      (∀ T, i.subdomainToTenant
          (String.mk (host.data.takeWhile (fun c => decide (c ≠ '.')))) = some T →
        i.IdentifyTenant host = (T, true)) ∧
      (i.subdomainToTenant
          (String.mk (host.data.takeWhile (fun c => decide (c ≠ '.')))) = none →
        i.IdentifyTenant host = ("", false))) ∧
    (String.mk (host.data.takeWhile (fun c => decide (c ≠ '.'))) = "" →
      i.IdentifyTenant host = ("", false)) := by
  have hsub : extractSubdomain host =
      String.mk (host.data.takeWhile (fun c => decide (c ≠ '.'))) := by
    simp only [extractSubdomain, hlabels, if_true]
    exact Split_first host '.'
  constructor
  · intro hne
    have hlook : i.IdentifyTenant host =
        i.subdomainToTenant.lookup
          (String.mk (host.data.takeWhile (fun c => decide (c ≠ '.')))) := by
      simp only [SubdomainIdentifier.IdentifyTenant, hsub, hne, if_false]
    refine ⟨hlook, ?_, ?_⟩
    · intro T hT
      rw [hlook]
      unfold GoMap.lookup
      rw [hT]
    · intro hnone
      rw [hlook]
      unfold GoMap.lookup
      rw [hnone]
  · intro hempty
    simp only [SubdomainIdentifier.IdentifyTenant, hsub, hempty, if_true]

/-- C11 at host `demo.platform.io` with `"demo"` registered to `"tenant-a"`. -/
theorem C11_subdomain_first_label_witness :
    (NewSubdomainIdentifier.RegisterSubdomain "tenant-a" "demo").IdentifyTenant
        "demo.platform.io" = ("tenant-a", true) :=
  ((C11_subdomain_first_label (NewSubdomainIdentifier.RegisterSubdomain "tenant-a" "demo")
    "demo.platform.io" (by decide)).1 (by decide)).2.1 "tenant-a" (by decide)

/-- C11 fails as stated: the host `.platform.io` splits into three labels, its first label
is the empty string, the empty string is registered to `"tenant-a"`, and the Subdomain
strategy returns not found. -/
theorem C11_empty_first_label_counterexample :
    (Split ".platform.io" '.').length = 3 ∧
    (Split ".platform.io" '.').getD 0 "x" = "" ∧
    (NewSubdomainIdentifier.RegisterSubdomain "tenant-a" "").subdomainToTenant.lookup "" =
      ("tenant-a", true) ∧
    (NewSubdomainIdentifier.RegisterSubdomain "tenant-a" "").IdentifyTenant ".platform.io" =
      ("", false) ∧
    (NewSubdomainIdentifier.RegisterSubdomain "tenant-a" "").IdentifyTenant ".platform.io" ≠
      (NewSubdomainIdentifier.RegisterSubdomain "tenant-a" "").subdomainToTenant.lookup
        ((Split ".platform.io" '.').getD 0 "x") := by
  decide

theorem HasPrefix_iff (s pre : String) :
    HasPrefix s pre = true ↔ ∃ rest : List Char, s.data = pre.data ++ rest := by
  unfold HasPrefix
  rw [List.isPrefixOf_iff_prefix]
  constructor
  · rintro ⟨rest, hrest⟩
    exact ⟨rest, hrest.symm⟩
  · rintro ⟨rest, hrest⟩
    exact ⟨rest, hrest.symm⟩

theorem splitAux_tenants (rest : List Char) :
    splitAux '/' ("/tenants/".data ++ rest) [] =
      [] :: "tenants".data :: splitAux '/' rest [] := by
  simp +decide [splitAux]

/-- C12: the Path strategy matches exactly when the path starts with `/tenants/`, and for
a path `/tenants/` followed by `rest` it returns the text of `rest` before its first `/`
(all of `rest` when it has none); `strings.Split` then yields at least three pieces, so
the final `return "", false` is not reached. -/
theorem C12_path_identifier (path : String) :
    ((PathIdentifier.IdentifyTenant path).2 = true ↔ HasPrefix path "/tenants/" = true) ∧
    (HasPrefix path "/tenants/" = true ↔
      ∃ rest : List Char, path.data = "/tenants/".data ++ rest) ∧
    (∀ rest : List Char, path.data = "/tenants/".data ++ rest →
      3 ≤ (Split path '/').length ∧
      (Split path '/').getD 2 "" =
        String.mk (rest.takeWhile (fun c => decide (c ≠ '/'))) ∧
      PathIdentifier.IdentifyTenant path =
        (String.mk (rest.takeWhile (fun c => decide (c ≠ '/'))), true)) := by
  have hrest : ∀ rest : List Char, path.data = "/tenants/".data ++ rest →
      3 ≤ (Split path '/').length ∧
      (Split path '/').getD 2 "" =
        String.mk (rest.takeWhile (fun c => decide (c ≠ '/'))) ∧
      PathIdentifier.IdentifyTenant path =
        (String.mk (rest.takeWhile (fun c => decide (c ≠ '/'))), true) := by
    intro rest hdata
    have hpre : HasPrefix path "/tenants/" = true := (HasPrefix_iff _ _).2 ⟨rest, hdata⟩
    have hhead := splitAux_head '/' rest []
    cases htail : splitAux '/' rest [] with
    | nil => simp [htail] at hhead
    | cons third more =>
      rw [htail] at hhead
      simp only [List.head?_cons, Option.some.injEq, List.reverse_nil,
        List.nil_append] at hhead
      have hsplit : Split path '/' =
          "" :: "tenants" :: String.mk third :: more.map String.mk := by
        unfold Split
        rw [hdata, splitAux_tenants, htail]
        rfl
      have hlen : 3 ≤ (Split path '/').length := by
        rw [hsplit]; simp
      refine ⟨hlen, ?_, ?_⟩
      · rw [hsplit, hhead]; rfl
      · unfold PathIdentifier.IdentifyTenant
        simp only [hpre, Bool.not_true, Bool.false_eq_true, if_false]
        have hge : (Split path '/').length ≥ 3 := hlen
        simp only [hge, if_true]
        rw [hsplit, hhead]; rfl
  refine ⟨?_, HasPrefix_iff _ _, hrest⟩
  constructor
  · intro hmatch
    by_contra hno
    simp [PathIdentifier.IdentifyTenant, hno] at hmatch
  · intro hpre
    obtain ⟨rest, hdata⟩ := (HasPrefix_iff _ _).1 hpre
    rw [(hrest rest hdata).2.2]

/-- C12 at the path `/tenants/acme/orders`. -/
theorem C12_path_identifier_witness :
    PathIdentifier.IdentifyTenant "/tenants/acme/orders" = ("acme", true) :=
  ((C12_path_identifier "/tenants/acme/orders").2.2 "acme/orders".data (by decide)).2.2

/-! ## C13, C14: the JWT strategy -/

theorem JWT_identify_of_parts (lib : Codec) (token a p s : String)
    (hparts : Split token '.' = [a, p, s]) :
    JWTIdentifier.IdentifyTenant lib token =
      match lib.DecodeString p with
      | none => ("", false)
      | some payload =>
        match lib.Unmarshal payload with
        | none => ("", false)
        | some claims =>
          match claims "tenant_id" with
          | some (JSONValue.str tenantID) => (tenantID, true)
          | _ => ("", false) := by
  simp [JWTIdentifier.IdentifyTenant, hparts]

theorem JWT_identify_hit_iff (lib : Codec) (token tenantID : String) :
    JWTIdentifier.IdentifyTenant lib token = (tenantID, true) ↔
      ∃ a p s, Split token '.' = [a, p, s] ∧
        ∃ payload, lib.DecodeString p = some payload ∧
          ∃ claims, lib.Unmarshal payload = some claims ∧
            claims "tenant_id" = some (JSONValue.str tenantID) := by
  constructor
  · intro hhit
    unfold JWTIdentifier.IdentifyTenant at hhit
    by_cases hlen : (Split token '.').length = 3
    · obtain ⟨a, p, s, hparts⟩ := List.length_eq_three.1 hlen
      refine ⟨a, p, s, hparts, ?_⟩
      simp only [hparts, List.length_cons, List.length_nil, ne_eq, not_true_eq_false,
        if_false, List.getD_cons_succ, List.getD_cons_zero] at hhit
      cases hdec : lib.DecodeString p with
      | none => simp [hdec] at hhit
      | some payload =>
        refine ⟨payload, rfl, ?_⟩
        simp only [hdec] at hhit
        cases hun : lib.Unmarshal payload with
        | none => simp [hun] at hhit
        | some claims =>
          refine ⟨claims, rfl, ?_⟩
          simp only [hun] at hhit
          cases hclaim : claims "tenant_id" with
          | none => simp [hclaim] at hhit
          | some v =>
            cases v with
            | other => simp [hclaim] at hhit
            | str value =>
              simp only [hclaim, Prod.mk.injEq, and_true] at hhit
              rw [hhit]
    · simp [hlen] at hhit
  · rintro ⟨a, p, s, hparts, payload, hdec, claims, hun, hclaim⟩
    rw [JWT_identify_of_parts lib token a p s hparts, hdec]
    simp only [hun, hclaim]

theorem JWT_identify_miss (lib : Codec) (token : String)
    (hmiss : (JWTIdentifier.IdentifyTenant lib token).2 = false) :
    JWTIdentifier.IdentifyTenant lib token = ("", false) := by
  unfold JWTIdentifier.IdentifyTenant at hmiss ⊢
  by_cases hlen : (Split token '.').length = 3
  · simp only [hlen, ne_eq, not_true_eq_false, if_false] at hmiss ⊢
    cases hdec : lib.DecodeString ((Split token '.').getD 1 "") with
    | none => rfl
    | some payload =>
      simp only [hdec] at hmiss ⊢
      cases hun : lib.Unmarshal payload with
      | none => rfl
      | some claims =>
        simp only [hun] at hmiss ⊢
        cases hclaim : claims "tenant_id" with
        | none => rfl
        | some v =>
          cases v with
          | other => rfl
          | str value => simp [hclaim] at hmiss
  · simp [hlen]

/-- C13: the JWT strategy of the resolver returns `(tenantID, true)` exactly when the
`Authorization` header is present and starts with `Bearer `, the rest splits on `.` into
exactly three segments, `DecodeString` accepts the middle one, `Unmarshal` accepts the
decoded bytes, and the claims hold the string `tenantID` under `tenant_id`; when it does
not match it returns `"", false`, and if the Header strategy has missed as well `Resolve`
goes on with API-Key, Custom-Domain, Subdomain, Path. -/
theorem C13_jwt_strategy (lib : Codec) (r : TenantResolver) (request : RequestContext) :
    (∀ tenantID, r.tryStrategy lib StrategyJWT request = (tenantID, true) ↔
      ∃ bearer, request.Headers "Authorization" = some bearer ∧
        HasPrefix bearer "Bearer " = true ∧
        ∃ a p s, Split (sliceFrom bearer 7) '.' = [a, p, s] ∧
          ∃ payload, lib.DecodeString p = some payload ∧
            ∃ claims, lib.Unmarshal payload = some claims ∧
              claims "tenant_id" = some (JSONValue.str tenantID)) ∧
    ((r.tryStrategy lib StrategyJWT request).2 = false →
      r.tryStrategy lib StrategyJWT request = ("", false)) ∧
    (r.resolutionOrder =
        [StrategyHeader, StrategyJWT, StrategyAPIKey, StrategyCustomDomain,
          StrategySubdomain, StrategyPath] →
      (r.tryStrategy lib StrategyHeader request).2 = false →
      (r.tryStrategy lib StrategyJWT request).2 = false →
      r.Resolve lib request =
        r.resolveLoop lib request
          [StrategyAPIKey, StrategyCustomDomain, StrategySubdomain, StrategyPath]) := by
  have htry : r.tryStrategy lib StrategyJWT request =
      match request.Headers "Authorization" with
      | some bearer =>
        if HasPrefix bearer "Bearer " then
          JWTIdentifier.IdentifyTenant lib (sliceFrom bearer 7)
        else ("", false)
      | none => ("", false) := by
    simp +decide [TenantResolver.tryStrategy]
  refine ⟨?_, ?_, ?_⟩
  · intro tenantID
    rw [htry]
    cases hauth : request.Headers "Authorization" with
    | none => simp
    | some bearer =>
      by_cases hpre : HasPrefix bearer "Bearer " = true
      · simp only [hpre, if_true, Option.some.injEq, exists_eq_left', true_and]
        exact JWT_identify_hit_iff lib (sliceFrom bearer 7) tenantID
      · simp [hpre]
  · rw [htry]
    cases hauth : request.Headers "Authorization" with
    | none => simp
    | some bearer =>
      by_cases hpre : HasPrefix bearer "Bearer " = true
      · simp only [hpre, if_true]
        exact JWT_identify_miss lib (sliceFrom bearer 7)
      · simp [hpre]
  · intro horder hheader hjwt
    simp only [TenantResolver.Resolve, horder]
    rw [resolveLoop_cons, resolveLoop_cons]
    simp [hheader, hjwt]

/-- C13 at the example codec: a bearer token whose middle segment is the accepted payload
is resolved to `t-1` by the JWT strategy. -/
theorem C13_jwt_strategy_witness :
    exampleResolver.tryStrategy exampleCodec StrategyJWT
        { Host := "platform.io", Path := "/",
          Headers := GoMap.empty.set "Authorization"
            "Bearer hdr.eyJ0ZW5hbnRfaWQiOiJ0LTEifQ.sig" } = ("t-1", true) :=
  ((C13_jwt_strategy exampleCodec exampleResolver
      { Host := "platform.io", Path := "/",
        Headers := GoMap.empty.set "Authorization"
          "Bearer hdr.eyJ0ZW5hbnRfaWQiOiJ0LTEifQ.sig" }).1 "t-1").2
    ⟨"Bearer hdr.eyJ0ZW5hbnRfaWQiOiJ0LTEifQ.sig", by decide, by decide,
      "hdr", "eyJ0ZW5hbnRfaWQiOiJ0LTEifQ", "sig", by decide,
      [123, 34, 116, 101, 110, 97, 110, 116, 95, 105, 100, 34, 58, 34, 116, 45, 49, 34, 125],
      by decide, GoMap.empty.set "tenant_id" (JSONValue.str "t-1"), rfl, by decide⟩

/-- C14: two tokens that split on `.` into exactly three segments and have the same middle
segment get the same result from `JWTIdentifier.IdentifyTenant`, whatever their first and
last segments are. -/
theorem C14_jwt_middle_segment_only (lib : Codec) (token1 token2 a1 s1 a2 s2 p : String)
    (h1 : Split token1 '.' = [a1, p, s1]) (h2 : Split token2 '.' = [a2, p, s2]) :
    JWTIdentifier.IdentifyTenant lib token1 = JWTIdentifier.IdentifyTenant lib token2 := by
  rw [JWT_identify_of_parts lib token1 a1 p s1 h1, JWT_identify_of_parts lib token2 a2 p s2 h2]

/-- C14 at two tokens with different header and signature segments. -/
theorem C14_jwt_middle_segment_only_witness :
    JWTIdentifier.IdentifyTenant exampleCodec "hdr.eyJ0ZW5hbnRfaWQiOiJ0LTEifQ.sig" =
      JWTIdentifier.IdentifyTenant exampleCodec "other.eyJ0ZW5hbnRfaWQiOiJ0LTEifQ.forged" :=
  C14_jwt_middle_segment_only exampleCodec _ _ "hdr" "sig" "other" "forged"
    "eyJ0ZW5hbnRfaWQiOiJ0LTEifQ" (by decide) (by decide)

/-! ## C15, C16, C17, C18: provisioning, gating, idempotence, purity -/

/-- C15: for a stored tenant with status `ACTIVE` that holds no capability named `n`,
`ProvisionCapability(T, type, n, q)` returns no error, and afterwards `CheckQuota(T, n, u)`
is true exactly for the `int64` values `u ≤ q`. -/
theorem C15_quota_after_provisioning (cp : TenantControlPlane) (T n : String)
    (capType : CapabilityType) (q : Int) (tenant : Tenant)
    (hstored : cp.repository.FindByID T = some tenant)
    (hactive : tenant.Status = StatusActive)
    (hnew : ∀ cap ∈ cp.repository.GetCapabilities T, cap.Name ≠ n) :
    (cp.ProvisionCapability T capType n q).2 = none ∧
    ∀ u, IsInt64 u →
      (CapabilityService.CheckQuota (cp.ProvisionCapability T capType n q).1.repository
        T n u = true ↔ u ≤ q) := by
  have hres : cp.ProvisionCapability T capType n q =
      ({ cp with repository :=
          cp.repository.AddCapability T (NewCapability capType n q) }, none) := by
    simp [TenantControlPlane.ProvisionCapability, CapabilityService.EnableCapability,
      hstored, hactive]
  rw [hres]
  refine ⟨rfl, ?_⟩
  intro u hu
  have hfind : (cp.repository.AddCapability T (NewCapability capType n q)).FindCapability
      T n = some (NewCapability capType n q) := by
    unfold TenantRepository.FindCapability TenantRepository.AddCapability
    simp only [GoMap_set_self, Option.getD_some]
    exact findByName_first n _ _ [] hnew rfl
  unfold CapabilityService.CheckQuota
  rw [hfind]
  simp [NewCapability, NewResourceQuota, ResourceQuota.CanAllocate,
    wrapInt64_of_isInt64 u hu]

/-- C15 with quota 1000 on a fresh control plane after onboarding and activation: 1000
units pass and 1001 do not. -/
theorem C15_quota_after_provisioning_witness :
    CapabilityService.CheckQuota
        ((((NewTenantControlPlane.OnboardTenant "Demo Corp" uuidOne 0).1.ActivateTenant
          "tenant-3f2a9c1e").1.ProvisionCapability "tenant-3f2a9c1e" CapabilityStorage
            "storage" 1000).1.repository) "tenant-3f2a9c1e" "storage" 1000 = true ∧
    CapabilityService.CheckQuota
        ((((NewTenantControlPlane.OnboardTenant "Demo Corp" uuidOne 0).1.ActivateTenant
          "tenant-3f2a9c1e").1.ProvisionCapability "tenant-3f2a9c1e" CapabilityStorage
            "storage" 1000).1.repository) "tenant-3f2a9c1e" "storage" 1001 = false := by
  have h := (C15_quota_after_provisioning
    ((NewTenantControlPlane.OnboardTenant "Demo Corp" uuidOne 0).1.ActivateTenant
      "tenant-3f2a9c1e").1 "tenant-3f2a9c1e" "storage" CapabilityStorage 1000
    { TenantID := "tenant-3f2a9c1e", Name := "Demo Corp", Status := StatusActive,
      CreatedAt := 0, Metadata := [] } (by decide) (by decide) (by decide)).2
  constructor
  · exact (h 1000 (by decide)).2 (by decide)
  · have h1001 := h 1001 (by decide)
    cases hq : CapabilityService.CheckQuota
        ((((NewTenantControlPlane.OnboardTenant "Demo Corp" uuidOne 0).1.ActivateTenant
          "tenant-3f2a9c1e").1.ProvisionCapability "tenant-3f2a9c1e" CapabilityStorage
            "storage" 1000).1.repository) "tenant-3f2a9c1e" "storage" 1001 with
    | false => rfl
    | true => exact absurd (h1001.1 hq) (by decide)

/-- C16: on the tenant that `CreateTenant` returns (status `PROVISIONING`),
`ProvisionCapability` returns the "tenant must be active" error and leaves the control
plane as it was; `ActivateTenant` on that tenant then returns no error, and after it the
same `ProvisionCapability` call returns no error. -/
theorem C16_lifecycle_gating (cp : TenantControlPlane) (tenantName uuid : String) (now : Nat)
    (capType : CapabilityType) (name : String) (quota : Int) :
    (cp.OnboardTenant tenantName uuid now).2.Status = StatusProvisioning ∧
    (cp.OnboardTenant tenantName uuid now).1.ProvisionCapability
        (cp.OnboardTenant tenantName uuid now).2.TenantID capType name quota =
      ((cp.OnboardTenant tenantName uuid now).1,
        some "tenant must be active to enable capabilities") ∧
    ((cp.OnboardTenant tenantName uuid now).1.ActivateTenant
        (cp.OnboardTenant tenantName uuid now).2.TenantID).2 = none ∧
    (((cp.OnboardTenant tenantName uuid now).1.ActivateTenant
        (cp.OnboardTenant tenantName uuid now).2.TenantID).1.ProvisionCapability
        (cp.OnboardTenant tenantName uuid now).2.TenantID capType name quota).2 = none := by
  have hfind : (cp.OnboardTenant tenantName uuid now).1.repository.FindByID
      (cp.OnboardTenant tenantName uuid now).2.TenantID =
        some (cp.OnboardTenant tenantName uuid now).2 :=
    Save_findByID_self cp.repository _
  have hst : (cp.OnboardTenant tenantName uuid now).2.Status = StatusProvisioning := rfl
  have hact : (cp.OnboardTenant tenantName uuid now).1.ActivateTenant
      (cp.OnboardTenant tenantName uuid now).2.TenantID =
      ({ (cp.OnboardTenant tenantName uuid now).1 with
          repository := (cp.OnboardTenant tenantName uuid now).1.repository.Save
            { (cp.OnboardTenant tenantName uuid now).2 with Status := StatusActive } },
        none) := by
    simp only [TenantControlPlane.ActivateTenant, TenantService.ActivateTenant, hfind]
  refine ⟨hst, ?_, ?_, ?_⟩
  · simp +decide [TenantControlPlane.ProvisionCapability,
      CapabilityService.EnableCapability, hfind, hst]
  · rw [hact]
  · rw [hact]
    have hfind2 := Save_findByID_self (cp.OnboardTenant tenantName uuid now).1.repository
      { (cp.OnboardTenant tenantName uuid now).2 with Status := StatusActive }
    simp only [TenantControlPlane.ProvisionCapability, CapabilityService.EnableCapability]
    simp only [] at hfind2
    simp [hfind2]

/-- C17: on a repository that stores every tenant under its own id, for a stored tenant
id `ActivateTenant` returns no error, the tenant stored under the id afterwards has
status `ACTIVE`, and a second call returns no error and the very same repository. -/
theorem C17_activate_idempotent (r : TenantRepository) (tenantID : String) (tenant : Tenant)
    (hkeys : r.KeyedByID) (hstored : r.FindByID tenantID = some tenant) :
    (TenantService.ActivateTenant r tenantID).2 = none ∧
    (∃ t, (TenantService.ActivateTenant r tenantID).1.FindByID tenantID = some t ∧
      t.Status = StatusActive) ∧
    TenantService.ActivateTenant (TenantService.ActivateTenant r tenantID).1 tenantID =
      ((TenantService.ActivateTenant r tenantID).1, none) := by
  have hid : tenant.TenantID = tenantID := hkeys tenantID tenant hstored
  have hfirst : TenantService.ActivateTenant r tenantID =
      (r.Save { tenant with Status := StatusActive }, none) := by
    simp [TenantService.ActivateTenant, hstored]
  have hself : (r.Save { tenant with Status := StatusActive }).FindByID tenantID =
      some { tenant with Status := StatusActive } := by
    have h := Save_findByID_self r { tenant with Status := StatusActive }
    simpa [hid] using h
  rw [hfirst]
  refine ⟨rfl, ⟨_, hself, rfl⟩, ?_⟩
  show TenantService.ActivateTenant (r.Save { tenant with Status := StatusActive })
    tenantID = _
  unfold TenantService.ActivateTenant
  rw [hself]
  simp only [Save_Save_same]

/-- C17 at the example repository: activating `"tenant-a"` twice gives the state of the
first activation. -/
theorem C17_activate_idempotent_witness :
    TenantService.ActivateTenant
        (TenantService.ActivateTenant exampleRepository "tenant-a").1 "tenant-a" =
      ((TenantService.ActivateTenant exampleRepository "tenant-a").1, none) :=
  (C17_activate_idempotent exampleRepository "tenant-a" exampleTenant
    exampleRepository_keyedByID (by decide)).2.2

theorem CheckQuotaStep_eq (r : TenantRepository) (tenantID capability : String)
    (units : Int) :
    CapabilityService.CheckQuotaStep r tenantID capability units =
      (r, CapabilityService.CheckQuota r tenantID capability units) := by
  unfold CapabilityService.CheckQuotaStep CapabilityService.CheckQuota
    TenantRepository.FindCapabilityStep
  cases hfind : r.FindCapability tenantID capability with
  | none => rfl
  | some cap => cases hen : cap.Enabled <;> simp [hen]

theorem AuthorizeRequestStep_eq (cp : TenantControlPlane) (tenantID capability : String)
    (units : Int) :
    cp.AuthorizeRequestStep tenantID capability units =
      (cp, cp.AuthorizeRequest tenantID capability units) := by
  unfold TenantControlPlane.AuthorizeRequestStep TenantControlPlane.AuthorizeRequest
    TenantService.GetTenantStep TenantService.GetTenant TenantRepository.FindByIDStep
  cases hfind : cp.repository.FindByID tenantID with
  | none => rfl
  | some tenant =>
    by_cases hst : tenant.Status = StatusActive
    · simp [hst, CheckQuotaStep_eq]
    · simp [hst]

/-- C18: `CheckQuota` and `AuthorizeRequest` leave the state they are called in: the
repository (tenant map and capability map, with every status and usage counter) after the
call is the one before it, the value returned is the one of the predicate, and a second
call returns the same state and value. -/
theorem C18_quota_checks_are_pure (cp : TenantControlPlane) (tenantID capability : String)
    (units : Int) :
    CapabilityService.CheckQuotaStep cp.repository tenantID capability units =
      (cp.repository, CapabilityService.CheckQuota cp.repository tenantID capability units) ∧
    cp.AuthorizeRequestStep tenantID capability units =
      (cp, cp.AuthorizeRequest tenantID capability units) ∧
    CapabilityService.CheckQuotaStep
        (CapabilityService.CheckQuotaStep cp.repository tenantID capability units).1
        tenantID capability units =
      CapabilityService.CheckQuotaStep cp.repository tenantID capability units ∧
    (cp.AuthorizeRequestStep tenantID capability units).1.AuthorizeRequestStep
        tenantID capability units =
      cp.AuthorizeRequestStep tenantID capability units := by
  refine ⟨CheckQuotaStep_eq _ _ _ _, AuthorizeRequestStep_eq _ _ _ _, ?_, ?_⟩
  · simp only [CheckQuotaStep_eq]
  · simp only [AuthorizeRequestStep_eq]

/-! ## Effect of one operation on the tenant map -/

/-- One operation leaves the tenant map as it is, or stores the tenant `onboardTenant`
returns under its id, or stores a stored tenant again under its id with status `ACTIVE` or
`SUSPENDED`. -/
theorem apply_tenants (cp : TenantControlPlane) (op : Op) :
    (cp.apply op).repository.tenants = cp.repository.tenants ∨
    (∃ name uuid now, op = Op.onboardTenant name uuid now ∧
      (cp.apply op).repository.tenants =
        cp.repository.tenants.set (cp.OnboardTenant name uuid now).2.TenantID
          (cp.OnboardTenant name uuid now).2) ∨
    (∃ k old st, cp.repository.tenants k = some old ∧
      (st = StatusActive ∨ st = StatusSuspended) ∧
      (cp.apply op).repository.tenants =
        cp.repository.tenants.set old.TenantID
          { TenantID := old.TenantID, Name := old.Name, Status := st,
            CreatedAt := old.CreatedAt, Metadata := old.Metadata }) := by
  cases op with
  | onboardTenant name uuid now =>
    right; left
    exact ⟨name, uuid, now, rfl, rfl⟩
  | activateTenant tenantID =>
    cases hfind : cp.repository.FindByID tenantID with
    | none =>
      left
      simp [TenantControlPlane.apply, TenantControlPlane.ActivateTenant,
        TenantService.ActivateTenant, hfind]
    | some old =>
      right; right
      refine ⟨tenantID, old, StatusActive, hfind, Or.inl rfl, ?_⟩
      simp [TenantControlPlane.apply, TenantControlPlane.ActivateTenant,
        TenantService.ActivateTenant, hfind, TenantRepository.Save]
  | suspendTenant tenantID =>
    cases hfind : cp.repository.FindByID tenantID with
    | none =>
      left
      simp [TenantControlPlane.apply, TenantControlPlane.SuspendTenant,
        TenantService.SuspendTenant, hfind]
    | some old =>
      right; right
      refine ⟨tenantID, old, StatusSuspended, hfind, Or.inr rfl, ?_⟩
      simp [TenantControlPlane.apply, TenantControlPlane.SuspendTenant,
        TenantService.SuspendTenant, hfind, TenantRepository.Save]
  | provisionCapability tenantID capType name quota =>
    left
    simp only [TenantControlPlane.apply, TenantControlPlane.ProvisionCapability,
      CapabilityService.EnableCapability]
    cases hfind : cp.repository.FindByID tenantID with
    | none => rfl
    | some tenant =>
      by_cases hst : tenant.Status = StatusActive
      · simp [hst, TenantRepository.AddCapability]
      · simp [hst]
  | recordUsage tenantID capability usage =>
    left
    simp only [TenantControlPlane.apply, TenantControlPlane.RecordUsage,
      CapabilityService.UpdateUsage]
    cases hfind : cp.repository.FindCapability tenantID capability with
    | none => rfl
    | some cap => rfl
  | checkQuota tenantID capability units =>
    left
    simp only [TenantControlPlane.apply, CheckQuotaStep_eq]
  | authorizeRequest tenantID capability units =>
    left
    simp only [TenantControlPlane.apply, AuthorizeRequestStep_eq]

theorem apply_keyedByID (cp : TenantControlPlane) (op : Op)
    (hkeys : cp.repository.KeyedByID) : (cp.apply op).repository.KeyedByID := by
  intro k t hk
  rcases apply_tenants cp op with hsame | ⟨name, uuid, now, _, hset⟩ | ⟨k0, old, st, _, _, hset⟩
  · rw [hsame] at hk
    exact hkeys k t hk
  · rw [hset] at hk
    simp only [GoMap.set] at hk
    by_cases hkid : k = (cp.OnboardTenant name uuid now).2.TenantID
    · simp only [hkid, if_true, Option.some.injEq] at hk
      rw [← hk, hkid]
    · simp only [hkid, if_false] at hk
      exact hkeys k t hk
  · rw [hset] at hk
    simp only [GoMap.set] at hk
    by_cases hkid : k = old.TenantID
    · simp only [hkid, if_true, Option.some.injEq] at hk
      rw [← hk, hkid]
    · simp only [hkid, if_false] at hk
      exact hkeys k t hk

theorem apply_statusesAssigned (cp : TenantControlPlane) (op : Op)
    (hlive : cp.repository.StatusesAssigned) :
    (cp.apply op).repository.StatusesAssigned := by
  intro k t hk
  rcases apply_tenants cp op with hsame | ⟨name, uuid, now, _, hset⟩ | ⟨k0, old, st, _, hst, hset⟩
  · rw [hsame] at hk
    exact hlive k t hk
  · rw [hset] at hk
    simp only [GoMap.set] at hk
    by_cases hkid : k = (cp.OnboardTenant name uuid now).2.TenantID
    · simp only [hkid, if_true, Option.some.injEq] at hk
      rw [← hk]
      exact Or.inl rfl
    · simp only [hkid, if_false] at hk
      exact hlive k t hk
  · rw [hset] at hk
    simp only [GoMap.set] at hk
    by_cases hkid : k = old.TenantID
    · simp only [hkid, if_true, Option.some.injEq] at hk
      rw [← hk]
      exact Or.inr hst
    · simp only [hkid, if_false] at hk
      exact hlive k t hk

/-- One operation that is fresh in its state keeps every stored tenant stored, with a
status that may follow the old one. -/
theorem apply_transition (cp : TenantControlPlane) (op : Op)
    (hkeys : cp.repository.KeyedByID) (hlive : cp.repository.StatusesAssigned)
    (hfresh : op.freshIn cp) (k : String) (t : Tenant)
    (hstored : cp.repository.FindByID k = some t) :
    ∃ t', (cp.apply op).repository.FindByID k = some t' ∧
      AllowedTransition t.Status t'.Status := by
  unfold TenantRepository.FindByID at hstored ⊢
  rcases apply_tenants cp op with hsame | ⟨name, uuid, now, hop, hset⟩ | ⟨k0, old, st, hold, hst, hset⟩
  · rw [hsame]
    exact ⟨t, hstored, Or.inl rfl⟩
  · subst hop
    have hne : k ≠ (cp.OnboardTenant name uuid now).2.TenantID := by
      intro hkid
      have hnone : cp.repository.tenants (cp.OnboardTenant name uuid now).2.TenantID = none :=
        hfresh
      rw [← hkid, hstored] at hnone
      exact Option.noConfusion hnone
    rw [hset]
    exact ⟨t, by simp [GoMap.set, hne, hstored], Or.inl rfl⟩
  · rw [hset]
    by_cases hkid : k = old.TenantID
    · have hk0 : old.TenantID = k0 := hkeys k0 old hold
      have hto : t = old := by
        rw [hkid, hk0, hold] at hstored
        exact (Option.some.inj hstored).symm
      refine ⟨{ TenantID := old.TenantID, Name := old.Name, Status := st,
                CreatedAt := old.CreatedAt, Metadata := old.Metadata },
        by simp [GoMap.set, hkid], ?_⟩
      subst hto
      unfold AllowedTransition
      rcases hlive k0 t hold with hp | hp | hp <;> rcases hst with hA | hA <;>
        simp [hp, hA]
    · exact ⟨t, by simp [GoMap.set, hkid, hstored], Or.inl rfl⟩

theorem NewTenantControlPlane_keyedByID : NewTenantControlPlane.repository.KeyedByID := by
  intro k t hk
  simp [NewTenantControlPlane, NewTenantRepository, GoMap.empty] at hk

theorem NewTenantControlPlane_statusesAssigned :
    NewTenantControlPlane.repository.StatusesAssigned := by
  intro k t hk
  simp [NewTenantControlPlane, NewTenantRepository, GoMap.empty] at hk

theorem run_keyedByID (ops : List Op) (cp : TenantControlPlane)
    (hkeys : cp.repository.KeyedByID) : (cp.run ops).repository.KeyedByID := by
  induction ops generalizing cp with
  | nil => exact hkeys
  | cons op rest ih => exact ih (cp.apply op) (apply_keyedByID cp op hkeys)

theorem run_statusesAssigned (ops : List Op) (cp : TenantControlPlane)
    (hlive : cp.repository.StatusesAssigned) : (cp.run ops).repository.StatusesAssigned := by
  induction ops generalizing cp with
  | nil => exact hlive
  | cons op rest ih => exact ih (cp.apply op) (apply_statusesAssigned cp op hlive)

/-- Along a sequence whose `onboardTenant` calls are fresh, a stored tenant with status
`ACTIVE` or `SUSPENDED` stays stored with one of these two statuses. -/
theorem run_stays_activated (ops : List Op) (cp : TenantControlPlane)
    (hkeys : cp.repository.KeyedByID) (hlive : cp.repository.StatusesAssigned)
    (hfresh : FreshRun cp ops) (k : String) (t : Tenant)
    (hstored : cp.repository.FindByID k = some t)
    (hstatus : t.Status = StatusActive ∨ t.Status = StatusSuspended) :
    ∃ t', (cp.run ops).repository.FindByID k = some t' ∧
      (t'.Status = StatusActive ∨ t'.Status = StatusSuspended) := by
  induction ops generalizing cp t with
  | nil => exact ⟨t, hstored, hstatus⟩
  | cons op rest ih =>
    obtain ⟨t1, hstored1, hallowed⟩ :=
      apply_transition cp op hkeys hlive hfresh.1 k t hstored
    have hstatus1 : t1.Status = StatusActive ∨ t1.Status = StatusSuspended := by
      unfold AllowedTransition at hallowed
      rcases hallowed with h | ⟨_, h⟩ | ⟨_, h⟩ | ⟨_, h⟩ | ⟨_, h⟩
      · rw [h]; exact hstatus
      · exact Or.inl h
      · exact Or.inr h
      · exact Or.inr h
      · exact Or.inl h
    exact ih (cp.apply op) (apply_keyedByID cp op hkeys) (apply_statusesAssigned cp op hlive)
      hfresh.2 t1 hstored1 hstatus1

/-! ## C19: the status state machine -/

/-- The state machine of the lifecycle service: in every state reached from the empty
control plane by a sequence of operations, every stored tenant has status `PROVISIONING`,
`ACTIVE` or `SUSPENDED` (never `INACTIVE`); one more operation, when it is not an
`onboardTenant` call that generates an identity already stored, keeps every stored tenant
stored and changes its status only by a self-loop or by `PROVISIONING → ACTIVE`,
`PROVISIONING → SUSPENDED`, `ACTIVE → SUSPENDED`, `SUSPENDED → ACTIVE`; and after any
further such operations a tenant that had status `ACTIVE` or `SUSPENDED` has one of these
two, not `PROVISIONING`. -/
theorem status_state_machine_of_fresh_identities (ops : List Op) :
    (∀ k t, (NewTenantControlPlane.run ops).repository.FindByID k = some t →
      t.Status ≠ StatusInactive ∧
      (t.Status = StatusProvisioning ∨ t.Status = StatusActive ∨
        t.Status = StatusSuspended)) ∧
    (∀ op, op.freshIn (NewTenantControlPlane.run ops) →
      ∀ k t, (NewTenantControlPlane.run ops).repository.FindByID k = some t →
        ∃ t', ((NewTenantControlPlane.run ops).apply op).repository.FindByID k = some t' ∧
          AllowedTransition t.Status t'.Status) ∧
    (∀ more, FreshRun (NewTenantControlPlane.run ops) more →
      ∀ k t, (NewTenantControlPlane.run ops).repository.FindByID k = some t →
        (t.Status = StatusActive ∨ t.Status = StatusSuspended) →
        ∃ t', ((NewTenantControlPlane.run ops).run more).repository.FindByID k = some t' ∧
          (t'.Status = StatusActive ∨ t'.Status = StatusSuspended) ∧
          t'.Status ≠ StatusProvisioning) := by
  have hkeys := run_keyedByID ops NewTenantControlPlane NewTenantControlPlane_keyedByID
  have hlive := run_statusesAssigned ops NewTenantControlPlane
    NewTenantControlPlane_statusesAssigned
  refine ⟨?_, ?_, ?_⟩
  · intro k t hstored
    have hthree := hlive k t hstored
    refine ⟨?_, hthree⟩
    rcases hthree with h | h | h <;> rw [h] <;> decide
  · intro op hop k t hstored
    exact apply_transition _ op hkeys hlive hop k t hstored
  · intro more hmore k t hstored hstatus
    obtain ⟨t', hstored', hstatus'⟩ :=
      run_stays_activated more _ hkeys hlive hmore k t hstored hstatus
    refine ⟨t', hstored', hstatus', ?_⟩
    rcases hstatus' with h | h <;> rw [h] <;> decide

/-- The state machine after onboarding and activating one tenant: suspending it is an
allowed transition from `ACTIVE`. -/
theorem status_state_machine_of_fresh_identities_example :
    ∃ t', ((NewTenantControlPlane.run
        [Op.onboardTenant "Demo Corp" uuidOne 0, Op.activateTenant "tenant-3f2a9c1e"]).apply
          (Op.suspendTenant "tenant-3f2a9c1e")).repository.FindByID "tenant-3f2a9c1e" =
        some t' ∧
      AllowedTransition StatusActive t'.Status :=
  (status_state_machine_of_fresh_identities
    [Op.onboardTenant "Demo Corp" uuidOne 0, Op.activateTenant "tenant-3f2a9c1e"]).2.1
    (Op.suspendTenant "tenant-3f2a9c1e") trivial "tenant-3f2a9c1e"
    { TenantID := "tenant-3f2a9c1e", Name := "Demo Corp", Status := StatusActive,
      CreatedAt := 0, Metadata := [] } (by decide)

/-- C19 at two `onboardTenant` calls whose UUID texts differ and share the first eight
characters: they generate the same identity, and the tenant stored under it is `ACTIVE`
after the first call and an activation, and `PROVISIONING` after the second call. -/
theorem C19_status_reset_by_identity_reuse :
    uuidOne ≠ uuidTwo ∧
    ((NewTenantControlPlane.run
        [Op.onboardTenant "Demo Corp" uuidOne 0,
          Op.activateTenant "tenant-3f2a9c1e"]).repository.FindByID "tenant-3f2a9c1e").map
      (fun t => t.Status) = some StatusActive ∧
    ((NewTenantControlPlane.run
        [Op.onboardTenant "Demo Corp" uuidOne 0, Op.activateTenant "tenant-3f2a9c1e",
          Op.onboardTenant "Other Corp" uuidTwo 1]).repository.FindByID
            "tenant-3f2a9c1e").map
      (fun t => t.Status) = some StatusProvisioning := by
  decide

/-! ## C20: the usage counter -/

theorem writeUsage_mem (name : String) (usage : Int) (caps : List Capability)
    (cap : Capability) (hmem : cap ∈ writeUsage name usage caps) :
    cap ∈ caps ∨ cap.Quota.CurrentUsage = usage := by
  induction caps with
  | nil => simp [writeUsage] at hmem
  | cons c rest ih =>
    unfold writeUsage at hmem
    by_cases hc : c.Name = name
    · simp only [hc, if_true, List.mem_cons] at hmem
      rcases hmem with h | h
      · right; rw [h]
      · left; exact List.mem_cons_of_mem c h
    · simp only [hc, if_false, List.mem_cons] at hmem
      rcases hmem with h | h
      · left; rw [h]; exact List.mem_cons_self c rest
      · rcases ih h with h' | h'
        · left; exact List.mem_cons_of_mem c h'
        · right; exact h'

theorem Save_usageNonneg (r : TenantRepository) (tenant : Tenant) (h : r.UsageNonneg) :
    (r.Save tenant).UsageNonneg := by
  intro k caps hk cap hcap
  unfold TenantRepository.Save at hk
  cases hcaps : r.tenantCapabilities tenant.TenantID with
  | some old =>
    simp only [hcaps] at hk
    exact h k caps hk cap hcap
  | none =>
    simp only [hcaps, GoMap.set] at hk
    by_cases hkid : k = tenant.TenantID
    · simp only [hkid, if_true, Option.some.injEq] at hk
      rw [← hk] at hcap
      simp at hcap
    · simp only [hkid, if_false] at hk
      exact h k caps hk cap hcap

theorem AddCapability_usageNonneg (r : TenantRepository) (tenantID : String)
    (capability : Capability) (h : r.UsageNonneg)
    (hcap : 0 ≤ capability.Quota.CurrentUsage) :
    (r.AddCapability tenantID capability).UsageNonneg := by
  intro k caps hk cap hmem
  simp only [TenantRepository.AddCapability, GoMap.set] at hk
  by_cases hkid : k = tenantID
  · simp only [hkid, if_true, Option.some.injEq] at hk
    rw [← hk, List.mem_append] at hmem
    rcases hmem with hold | hnew
    · cases hcaps : r.tenantCapabilities tenantID with
      | none => simp [hcaps] at hold
      | some old =>
        simp only [hcaps, Option.getD_some] at hold
        exact h tenantID old hcaps cap hold
    · simp only [List.mem_singleton] at hnew
      rw [hnew]; exact hcap
  · simp only [hkid, if_false] at hk
    exact h k caps hk cap hmem

theorem UpdateUsage_usageNonneg (r : TenantRepository) (tenantID name : String)
    (usage : Int) (h : r.UsageNonneg) (husage : 0 ≤ usage) :
    (CapabilityService.UpdateUsage r tenantID name usage).1.UsageNonneg := by
  unfold CapabilityService.UpdateUsage
  cases hfind : r.FindCapability tenantID name with
  | none => exact h
  | some found =>
    intro k caps hk cap hmem
    simp only [GoMap.set] at hk
    by_cases hkid : k = tenantID
    · simp only [hkid, if_true, Option.some.injEq] at hk
      rw [← hk] at hmem
      rcases writeUsage_mem name usage _ cap hmem with hold | hnew
      · cases hcaps : r.tenantCapabilities tenantID with
        | none => simp [hcaps] at hold
        | some old =>
          simp only [hcaps, Option.getD_some] at hold
          exact h tenantID old hcaps cap hold
      · rw [hnew]; exact husage
    · simp only [hkid, if_false] at hk
      exact h k caps hk cap hmem

theorem apply_usageNonneg (cp : TenantControlPlane) (op : Op)
    (h : cp.repository.UsageNonneg) (hop : op.usageNonneg) :
    (cp.apply op).repository.UsageNonneg := by
  cases op with
  | onboardTenant name uuid now => exact Save_usageNonneg _ _ h
  | activateTenant tenantID =>
    simp only [TenantControlPlane.apply, TenantControlPlane.ActivateTenant,
      TenantService.ActivateTenant]
    cases hfind : cp.repository.FindByID tenantID with
    | none => exact h
    | some tenant => exact Save_usageNonneg _ _ h
  | suspendTenant tenantID =>
    simp only [TenantControlPlane.apply, TenantControlPlane.SuspendTenant,
      TenantService.SuspendTenant]
    cases hfind : cp.repository.FindByID tenantID with
    | none => exact h
    | some tenant => exact Save_usageNonneg _ _ h
  | provisionCapability tenantID capType name quota =>
    simp only [TenantControlPlane.apply, TenantControlPlane.ProvisionCapability,
      CapabilityService.EnableCapability]
    cases hfind : cp.repository.FindByID tenantID with
    | none => exact h
    | some tenant =>
      by_cases hst : tenant.Status = StatusActive
      · simp only [hst, ne_eq, not_true_eq_false, if_false]
        exact AddCapability_usageNonneg _ _ _ h (le_refl 0)
      · simp only [ne_eq, hst, not_false_eq_true, if_true]
        exact h
  | recordUsage tenantID capability usage =>
    exact UpdateUsage_usageNonneg _ _ _ _ h hop
  | checkQuota tenantID capability units =>
    simpa only [TenantControlPlane.apply, CheckQuotaStep_eq] using h
  | authorizeRequest tenantID capability units =>
    simpa only [TenantControlPlane.apply, AuthorizeRequestStep_eq] using h

theorem run_usageNonneg (ops : List Op) (cp : TenantControlPlane)
    (h : cp.repository.UsageNonneg) (hops : ∀ op ∈ ops, op.usageNonneg) :
    (cp.run ops).repository.UsageNonneg := by
  induction ops generalizing cp with
  | nil => exact h
  | cons op rest ih =>
    exact ih (cp.apply op)
      (apply_usageNonneg cp op h (hops op (List.mem_cons_self op rest)))
      (fun op' hop' => hops op' (List.mem_cons_of_mem op hop'))

/-- C20, as the code has it: in every state reached from the empty control plane by a
sequence of operations whose `recordUsage` calls supply a usage that is not negative,
every stored capability has `0 ≤ CurrentUsage`. -/
theorem C20_usage_nonneg (ops : List Op) (hops : ∀ op ∈ ops, op.usageNonneg) :
    ∀ k, ∀ cap ∈ (NewTenantControlPlane.run ops).repository.GetCapabilities k,
      0 ≤ cap.Quota.CurrentUsage := by
  have hinit : NewTenantControlPlane.repository.UsageNonneg := by
    intro k caps hk
    simp [NewTenantControlPlane, NewTenantRepository, GoMap.empty] at hk
  have hrun := run_usageNonneg ops NewTenantControlPlane hinit hops
  intro k cap hmem
  unfold TenantRepository.GetCapabilities at hmem
  cases hcaps : (NewTenantControlPlane.run ops).repository.tenantCapabilities k with
  | none => simp [hcaps] at hmem
  | some caps =>
    simp only [hcaps, Option.getD_some] at hmem
    exact hrun k caps hcaps cap hmem

/-- C20 after onboarding, activation, provisioning and recording the usage 250: the stored
capability has usage 250, which is not negative. -/
theorem C20_usage_nonneg_witness :
    ({ CapType := CapabilityStorage, Name := "storage", Enabled := true, Config := [],
        Quota := { MaxLimit := 1000, CurrentUsage := 250, Unit := "units" } } : Capability) ∈
      (NewTenantControlPlane.run
        [Op.onboardTenant "Demo Corp" uuidOne 0, Op.activateTenant "tenant-3f2a9c1e",
          Op.provisionCapability "tenant-3f2a9c1e" CapabilityStorage "storage" 1000,
          Op.recordUsage "tenant-3f2a9c1e" "storage" 250]).repository.GetCapabilities
            "tenant-3f2a9c1e" ∧
    (0 : Int) ≤
      ({ CapType := CapabilityStorage, Name := "storage", Enabled := true, Config := [],
          Quota := { MaxLimit := 1000, CurrentUsage := 250, Unit := "units" } } :
        Capability).Quota.CurrentUsage :=
  ⟨by decide,
    C20_usage_nonneg
      [Op.onboardTenant "Demo Corp" uuidOne 0, Op.activateTenant "tenant-3f2a9c1e",
        Op.provisionCapability "tenant-3f2a9c1e" CapabilityStorage "storage" 1000,
        Op.recordUsage "tenant-3f2a9c1e" "storage" 250]
      (by
        intro op hop
        simp only [List.mem_cons, List.mem_singleton, List.not_mem_nil, or_false] at hop
        rcases hop with h | h | h | h <;> subst h
        · trivial
        · trivial
        · trivial
        · show (0 : Int) ≤ 250
          decide)
      "tenant-3f2a9c1e" _ (by decide)⟩

/-- C20 fails as stated: `recordUsage` with the `int64` value `-1` on a provisioned
capability leaves it with `CurrentUsage = -1`. -/
theorem C20_negative_usage_counterexample :
    IsInt64 (-1) ∧
    ((NewTenantControlPlane.run
        [Op.onboardTenant "Demo Corp" uuidOne 0, Op.activateTenant "tenant-3f2a9c1e",
          Op.provisionCapability "tenant-3f2a9c1e" CapabilityStorage "storage" 1000,
          Op.recordUsage "tenant-3f2a9c1e" "storage" (-1)]).repository.GetCapabilities
            "tenant-3f2a9c1e").map
      (fun cap => cap.Quota.CurrentUsage) = [-1] := by
  decide

/-! ## C21: the registries -/

theorem GoMap_set_other {β : Type} (m : GoMap β) (k k' : String) (v : β) (hk : k' ≠ k) :
    m.set k v k' = m k' := by
  simp [GoMap.set, hk]

theorem GoMap_lookup_set_self (m : GoMap String) (k v : String) :
    (m.set k v).lookup k = (v, true) := by
  simp [GoMap.lookup, GoMap.set]

theorem GoMap_lookup_set_other (m : GoMap String) (k k' v : String) (hk : k' ≠ k) :
    (m.set k v).lookup k' = m.lookup k' := by
  simp [GoMap.lookup, GoMap.set, hk]

/-- C21: in each of the three registries a second registration of a key replaces the
first (the lookup of `k` after `register(T1, k)` and `register(T2, k)` yields `T2`), a
registration leaves the lookup of every other key as it was, and a registration through
the resolver leaves the result of every strategy other than its own as it was. -/
theorem C21_registries_overwrite (lib : Codec) (r : TenantResolver) (T1 T2 k : String)
    (request : RequestContext) :
    (((r.apiKeyIdentifier.RegisterAPIKey T1 k).RegisterAPIKey T2 k).IdentifyTenant k =
        (T2, true) ∧
      ((r.customDomainIdentifier.RegisterCustomDomain T1 k).RegisterCustomDomain
        T2 k).IdentifyTenant k = (T2, true) ∧
      ((r.subdomainIdentifier.RegisterSubdomain T1 k).RegisterSubdomain
        T2 k).subdomainToTenant.lookup k = (T2, true) ∧
      (∀ host, extractSubdomain host = k → k ≠ "" →
        ((r.subdomainIdentifier.RegisterSubdomain T1 k).RegisterSubdomain
          T2 k).IdentifyTenant host = (T2, true))) ∧
    (∀ other, other ≠ k →
      (r.apiKeyIdentifier.RegisterAPIKey T1 k).IdentifyTenant other =
        r.apiKeyIdentifier.IdentifyTenant other ∧
      (r.customDomainIdentifier.RegisterCustomDomain T1 k).IdentifyTenant other =
        r.customDomainIdentifier.IdentifyTenant other ∧
      (r.subdomainIdentifier.RegisterSubdomain T1 k).subdomainToTenant.lookup other =
        r.subdomainIdentifier.subdomainToTenant.lookup other ∧
      (∀ host, extractSubdomain host = other →
        (r.subdomainIdentifier.RegisterSubdomain T1 k).IdentifyTenant host =
          r.subdomainIdentifier.IdentifyTenant host)) ∧
    (∀ strategy,
      (strategy ≠ StrategyAPIKey →
        (r.RegisterAPIKey T1 k).tryStrategy lib strategy request =
          r.tryStrategy lib strategy request) ∧
      (strategy ≠ StrategySubdomain →
        (r.RegisterSubdomain T1 k).tryStrategy lib strategy request =
          r.tryStrategy lib strategy request) ∧
      (strategy ≠ StrategyCustomDomain →
        (r.RegisterCustomDomain T1 k).tryStrategy lib strategy request =
          r.tryStrategy lib strategy request)) := by
  refine ⟨⟨?_, ?_, ?_, ?_⟩, ?_, ?_⟩
  · exact GoMap_lookup_set_self _ k T2
  · exact GoMap_lookup_set_self _ k T2
  · exact GoMap_lookup_set_self _ k T2
  · intro host hhost hne
    simp only [SubdomainIdentifier.IdentifyTenant, hhost, hne, if_false]
    exact GoMap_lookup_set_self _ k T2
  · intro other hother
    refine ⟨GoMap_lookup_set_other _ k other T1 hother,
      GoMap_lookup_set_other _ k other T1 hother,
      GoMap_lookup_set_other _ k other T1 hother, ?_⟩
    intro host hhost
    simp only [SubdomainIdentifier.IdentifyTenant, hhost]
    by_cases hempty : other = ""
    · simp [hempty]
    · simp only [hempty, if_false]
      exact GoMap_lookup_set_other _ k other T1 hother
  · intro strategy
    refine ⟨?_, ?_, ?_⟩
    · intro hs
      simp [TenantResolver.tryStrategy, TenantResolver.RegisterAPIKey, hs]
    · intro hs
      simp [TenantResolver.tryStrategy, TenantResolver.RegisterSubdomain, hs]
    · intro hs
      simp [TenantResolver.tryStrategy, TenantResolver.RegisterCustomDomain, hs]

/-- C21 at the example resolver: registering the custom domain `"k1"` leaves the API-Key
lookup of `"k1"` as it was. -/
theorem C21_registries_overwrite_witness :
    (exampleResolver.RegisterCustomDomain "tenant-b" "k1").tryStrategy rejectingCodec
        StrategyAPIKey
        { Host := "k1", Path := "/", Headers := GoMap.empty.set "X-Api-Key" "k1" } =
      exampleResolver.tryStrategy rejectingCodec StrategyAPIKey
        { Host := "k1", Path := "/", Headers := GoMap.empty.set "X-Api-Key" "k1" } :=
  ((C21_registries_overwrite rejectingCodec exampleResolver "tenant-b" "tenant-c" "k1"
    { Host := "k1", Path := "/", Headers := GoMap.empty.set "X-Api-Key" "k1" }).2.2
      StrategyAPIKey).2.2 (by decide)

/-! ## C22: the identity of a new tenant -/

/-- C22 at two `onboardTenant` calls whose UUID texts differ and share the first eight
characters: the second call returns the identity `tenant-3f2a9c1e` under which the first
tenant is stored, and afterwards the tenant stored under it is the new one, its capability
sequence is the one provisioned for the first tenant, not the empty one, and the first
tenant is no longer stored. -/
theorem C22_identity_reuse :
    uuidOne ≠ uuidTwo ∧
    (NewTenantControlPlane.run
        [Op.onboardTenant "Demo Corp" uuidOne 0, Op.activateTenant "tenant-3f2a9c1e",
          Op.provisionCapability "tenant-3f2a9c1e" CapabilityStorage "storage"
            1000]).repository.FindByID "tenant-3f2a9c1e" =
      some { TenantID := "tenant-3f2a9c1e", Name := "Demo Corp", Status := StatusActive,
             CreatedAt := 0, Metadata := [] } ∧
    ((NewTenantControlPlane.run
        [Op.onboardTenant "Demo Corp" uuidOne 0, Op.activateTenant "tenant-3f2a9c1e",
          Op.provisionCapability "tenant-3f2a9c1e" CapabilityStorage "storage"
            1000]).OnboardTenant "Other Corp" uuidTwo 1).2 =
      { TenantID := "tenant-3f2a9c1e", Name := "Other Corp", Status := StatusProvisioning,
        CreatedAt := 1, Metadata := [] } ∧
    ((NewTenantControlPlane.run
        [Op.onboardTenant "Demo Corp" uuidOne 0, Op.activateTenant "tenant-3f2a9c1e",
          Op.provisionCapability "tenant-3f2a9c1e" CapabilityStorage "storage"
            1000]).OnboardTenant "Other Corp" uuidTwo 1).1.repository.FindByID
        "tenant-3f2a9c1e" =
      some { TenantID := "tenant-3f2a9c1e", Name := "Other Corp",
             Status := StatusProvisioning, CreatedAt := 1, Metadata := [] } ∧
    ((NewTenantControlPlane.run
        [Op.onboardTenant "Demo Corp" uuidOne 0, Op.activateTenant "tenant-3f2a9c1e",
          Op.provisionCapability "tenant-3f2a9c1e" CapabilityStorage "storage"
            1000]).OnboardTenant "Other Corp" uuidTwo 1).1.repository.GetCapabilities
        "tenant-3f2a9c1e" =
      [{ CapType := CapabilityStorage, Name := "storage", Enabled := true, Config := [],
         Quota := { MaxLimit := 1000, CurrentUsage := 0, Unit := "units" } }] := by
  decide

/-! ## C23: the end-to-end scenario -/

/-- C23: on the empty control plane, after `OnboardTenant`, `ActivateTenant` of the tenant
returned, `ProvisionCapability` of `("API_CALLS", "api", 10000)` (both without error) and
`RegisterAPIKey` of `"k1"` for the tenant, a request whose only header is `X-Api-Key: k1`
resolves to the tenant's id with strategy `API_KEY`, for any host and path, and
`AuthorizeRequest(tenant, "api", 500)` is true. -/
theorem C23_end_to_end (lib : Codec) (tenantName uuid host path : String) (now : Nat) :
    ((NewTenantControlPlane.OnboardTenant tenantName uuid now).1.ActivateTenant
      (NewTenantControlPlane.OnboardTenant tenantName uuid now).2.TenantID).2 = none ∧
    ((((NewTenantControlPlane.OnboardTenant tenantName uuid now).1.ActivateTenant
      (NewTenantControlPlane.OnboardTenant tenantName uuid now).2.TenantID).1
        ).ProvisionCapability
      (NewTenantControlPlane.OnboardTenant tenantName uuid now).2.TenantID
      CapabilityAPICalls "api" 10000).2 = none ∧
    (((((NewTenantControlPlane.OnboardTenant tenantName uuid now).1.ActivateTenant
      (NewTenantControlPlane.OnboardTenant tenantName uuid now).2.TenantID).1
        ).ProvisionCapability
      (NewTenantControlPlane.OnboardTenant tenantName uuid now).2.TenantID
      CapabilityAPICalls "api" 10000).1.GetResolver.RegisterAPIKey
        (NewTenantControlPlane.OnboardTenant tenantName uuid now).2.TenantID "k1").Resolve
      lib { Host := host, Path := path, Headers := GoMap.empty.set "X-Api-Key" "k1" } =
      some ⟨(NewTenantControlPlane.OnboardTenant tenantName uuid now).2.TenantID,
        StrategyAPIKey, []⟩ ∧
    ((((NewTenantControlPlane.OnboardTenant tenantName uuid now).1.ActivateTenant
      (NewTenantControlPlane.OnboardTenant tenantName uuid now).2.TenantID).1
        ).ProvisionCapability
      (NewTenantControlPlane.OnboardTenant tenantName uuid now).2.TenantID
      CapabilityAPICalls "api" 10000).1.AuthorizeRequest
      (NewTenantControlPlane.OnboardTenant tenantName uuid now).2.TenantID "api" 500 =
      true := by
  have hfind : (NewTenantControlPlane.OnboardTenant tenantName uuid now).1.repository.FindByID
      (NewTenantControlPlane.OnboardTenant tenantName uuid now).2.TenantID =
        some (NewTenantControlPlane.OnboardTenant tenantName uuid now).2 :=
    Save_findByID_self _ _
  generalize hcp1 : (NewTenantControlPlane.OnboardTenant tenantName uuid now).1 = cp1 at *
  generalize ht : (NewTenantControlPlane.OnboardTenant tenantName uuid now).2 = t at *
  have hcaps1 : cp1.repository.tenantCapabilities t.TenantID = some [] := by
    rw [← hcp1, ← ht]
    simp [TenantControlPlane.OnboardTenant, TenantService.CreateTenant,
      TenantRepository.Save, NewTenantControlPlane, NewTenantRepository, GoMap.empty,
      GoMap.set]
  have hres1 : cp1.resolver = NewTenantResolver := by
    rw [← hcp1]; rfl
  obtain ⟨tA, htA⟩ : ∃ tA : Tenant, tA =
      { TenantID := t.TenantID, Name := t.Name, Status := StatusActive,
        CreatedAt := t.CreatedAt, Metadata := t.Metadata } := ⟨_, rfl⟩
  have hidA : tA.TenantID = t.TenantID := by rw [htA]
  have hstA : tA.Status = StatusActive := by rw [htA]
  have hact : cp1.ActivateTenant t.TenantID =
      ({ repository := cp1.repository.Save tA, resolver := cp1.resolver }, none) := by
    simp [TenantControlPlane.ActivateTenant, TenantService.ActivateTenant, hfind, htA]
  have hfind2 : (cp1.repository.Save tA).FindByID t.TenantID = some tA := by
    rw [← hidA]
    exact Save_findByID_self cp1.repository tA
  have hcaps2 : (cp1.repository.Save tA).tenantCapabilities t.TenantID = some [] := by
    simp [TenantRepository.Save, hidA, hcaps1]
  rw [hact]
  have hprov : TenantControlPlane.ProvisionCapability
      { repository := cp1.repository.Save tA, resolver := cp1.resolver }
      t.TenantID CapabilityAPICalls "api" 10000 =
      ({ repository := (cp1.repository.Save tA).AddCapability t.TenantID
            (NewCapability CapabilityAPICalls "api" 10000),
         resolver := cp1.resolver }, none) := by
    simp [TenantControlPlane.ProvisionCapability, CapabilityService.EnableCapability,
      hfind2, hstA]
  rw [hprov]
  refine ⟨rfl, rfl, ?_, ?_⟩
  · simp +decide [TenantControlPlane.GetResolver, hres1, TenantResolver.Resolve,
      TenantResolver.RegisterAPIKey, NewTenantResolver, resolveLoop_cons,
      TenantResolver.tryStrategy, HeaderIdentifier.IdentifyTenant,
      APIKeyIdentifier.IdentifyTenant, APIKeyIdentifier.RegisterAPIKey, GoMap.lookup,
      GoMap.set, GoMap.empty]
  · have hfind3 : ((cp1.repository.Save tA).AddCapability t.TenantID
        (NewCapability CapabilityAPICalls "api" 10000)).FindByID t.TenantID = some tA :=
      hfind2
    have hcap : ((cp1.repository.Save tA).AddCapability t.TenantID
        (NewCapability CapabilityAPICalls "api" 10000)).FindCapability t.TenantID "api" =
        some (NewCapability CapabilityAPICalls "api" 10000) := by
      unfold TenantRepository.FindCapability TenantRepository.AddCapability
      simp only [GoMap_set_self, Option.getD_some, hcaps2]
      simp [findByName, NewCapability]
    unfold TenantControlPlane.AuthorizeRequest TenantService.GetTenant
      CapabilityService.CheckQuota
    simp only [hfind3, hcap, hstA]
    decide

/-! ## C24: tenants are kept -/

theorem writeUsage_length (name : String) (usage : Int) (caps : List Capability) :
    (writeUsage name usage caps).length = caps.length := by
  induction caps with
  | nil => rfl
  | cons c rest ih =>
    unfold writeUsage
    by_cases hc : c.Name = name
    · simp [hc]
    · simp [hc, ih]

theorem AddCapability_getCapabilities_length (r : TenantRepository) (tenantID : String)
    (capability : Capability) (k : String) :
    (r.GetCapabilities k).length ≤ ((r.AddCapability tenantID capability).GetCapabilities
      k).length := by
  unfold TenantRepository.AddCapability TenantRepository.GetCapabilities
  by_cases hk : k = tenantID
  · subst hk
    simp [GoMap.set]
  · simp [GoMap.set, hk]

theorem UpdateUsage_getCapabilities_length (r : TenantRepository)
    (tenantID name : String) (usage : Int) (k : String) :
    ((CapabilityService.UpdateUsage r tenantID name usage).1.GetCapabilities k).length =
      (r.GetCapabilities k).length := by
  unfold CapabilityService.UpdateUsage
  cases hfind : r.FindCapability tenantID name with
  | none => rfl
  | some found =>
    unfold TenantRepository.GetCapabilities
    by_cases hk : k = tenantID
    · subst hk
      simp [GoMap.set, writeUsage_length]
    · simp [GoMap.set, hk]

/-- No operation shortens a capability sequence. -/
theorem apply_capabilities_length (cp : TenantControlPlane) (op : Op) (k : String) :
    (cp.repository.GetCapabilities k).length ≤
      ((cp.apply op).repository.GetCapabilities k).length := by
  cases op with
  | onboardTenant name uuid now =>
    exact le_of_eq (congrArg List.length (Save_getCapabilities _ _ k)).symm
  | activateTenant tenantID =>
    simp only [TenantControlPlane.apply, TenantControlPlane.ActivateTenant,
      TenantService.ActivateTenant]
    cases hfind : cp.repository.FindByID tenantID with
    | none => exact le_refl _
    | some tenant => exact le_of_eq (congrArg List.length (Save_getCapabilities _ _ k)).symm
  | suspendTenant tenantID =>
    simp only [TenantControlPlane.apply, TenantControlPlane.SuspendTenant,
      TenantService.SuspendTenant]
    cases hfind : cp.repository.FindByID tenantID with
    | none => exact le_refl _
    | some tenant => exact le_of_eq (congrArg List.length (Save_getCapabilities _ _ k)).symm
  | provisionCapability tenantID capType name quota =>
    simp only [TenantControlPlane.apply, TenantControlPlane.ProvisionCapability,
      CapabilityService.EnableCapability]
    cases hfind : cp.repository.FindByID tenantID with
    | none => exact le_refl _
    | some tenant =>
      by_cases hst : tenant.Status = StatusActive
      · simp only [hst, ne_eq, not_true_eq_false, if_false]
        exact AddCapability_getCapabilities_length _ _ _ k
      · simp only [ne_eq, hst, not_false_eq_true, if_true]
        exact le_refl _
  | recordUsage tenantID capability usage =>
    exact le_of_eq (UpdateUsage_getCapabilities_length _ _ _ _ k).symm
  | checkQuota tenantID capability units =>
    simp only [TenantControlPlane.apply, CheckQuotaStep_eq]
    exact le_refl _
  | authorizeRequest tenantID capability units =>
    simp only [TenantControlPlane.apply, AuthorizeRequestStep_eq]
    exact le_refl _

/-- One operation that is fresh in its state keeps every stored tenant stored, with its
identity and name. -/
theorem apply_keeps_tenant (cp : TenantControlPlane) (op : Op)
    (hkeys : cp.repository.KeyedByID) (hfresh : op.freshIn cp) (k : String) (t : Tenant)
    (hstored : cp.repository.FindByID k = some t) :
    ∃ t', (cp.apply op).repository.FindByID k = some t' ∧
      t'.TenantID = t.TenantID ∧ t'.Name = t.Name := by
  unfold TenantRepository.FindByID at hstored ⊢
  rcases apply_tenants cp op with hsame | ⟨name, uuid, now, hop, hset⟩ | ⟨k0, old, st, hold, _, hset⟩
  · rw [hsame]
    exact ⟨t, hstored, rfl, rfl⟩
  · subst hop
    have hne : k ≠ (cp.OnboardTenant name uuid now).2.TenantID := by
      intro hkid
      have hnone : cp.repository.tenants (cp.OnboardTenant name uuid now).2.TenantID = none :=
        hfresh
      rw [← hkid, hstored] at hnone
      exact Option.noConfusion hnone
    rw [hset]
    exact ⟨t, by simp [GoMap.set, hne, hstored], rfl, rfl⟩
  · rw [hset]
    by_cases hkid : k = old.TenantID
    · have hk0 : old.TenantID = k0 := hkeys k0 old hold
      have hto : t = old := by
        rw [hkid, hk0, hold] at hstored
        exact (Option.some.inj hstored).symm
      subst hto
      exact ⟨{ TenantID := t.TenantID, Name := t.Name, Status := st,
               CreatedAt := t.CreatedAt, Metadata := t.Metadata },
        by simp [GoMap.set, hkid], rfl, rfl⟩
    · exact ⟨t, by simp [GoMap.set, hkid, hstored], rfl, rfl⟩

theorem run_keeps_tenant (ops : List Op) (cp : TenantControlPlane)
    (hkeys : cp.repository.KeyedByID) (hfresh : FreshRun cp ops) (k : String) (t : Tenant)
    (hstored : cp.repository.FindByID k = some t) :
    ∃ t', (cp.run ops).repository.FindByID k = some t' ∧
      t'.TenantID = t.TenantID ∧ t'.Name = t.Name ∧
      (cp.repository.GetCapabilities k).length ≤
        ((cp.run ops).repository.GetCapabilities k).length := by
  induction ops generalizing cp t with
  | nil => exact ⟨t, hstored, rfl, rfl, le_refl _⟩
  | cons op rest ih =>
    obtain ⟨t1, hstored1, hid1, hname1⟩ := apply_keeps_tenant cp op hkeys hfresh.1 k t hstored
    obtain ⟨t2, hstored2, hid2, hname2, hlen2⟩ :=
      ih (cp.apply op) (apply_keyedByID cp op hkeys) hfresh.2 t1 hstored1
    exact ⟨t2, hstored2, hid2.trans hid1, hname2.trans hname1,
      le_trans (apply_capabilities_length cp op k) hlen2⟩

/-- C24: in a state that stores every tenant under its own id and in which `GetTenant(id)`
succeeds, after any sequence of core operations whose `onboardTenant` calls generate
identities that are not stored, `GetTenant(id)` succeeds and returns a tenant with the
same identity and name, and the capability sequence of the tenant is not shorter. -/
theorem C24_tenants_never_deleted (cp : TenantControlPlane) (ops : List Op)
    (tenantID : String) (tenant : Tenant) (hkeys : cp.repository.KeyedByID)
    (hfresh : FreshRun cp ops)
    (hstored : cp.GetTenant tenantID = Except.ok tenant) :
    ∃ t', (cp.run ops).GetTenant tenantID = Except.ok t' ∧
      t'.TenantID = tenant.TenantID ∧ t'.Name = tenant.Name ∧
      (cp.GetTenantCapabilities tenantID).length ≤
        ((cp.run ops).GetTenantCapabilities tenantID).length := by
  have hfind : cp.repository.FindByID tenantID = some tenant := by
    unfold TenantControlPlane.GetTenant TenantService.GetTenant at hstored
    cases hf : cp.repository.FindByID tenantID with
    | none => simp [hf] at hstored
    | some found =>
      simp only [hf, Except.ok.injEq] at hstored
      rw [hstored]
  obtain ⟨t', hstored', hid, hname, hlen⟩ :=
    run_keeps_tenant ops cp hkeys hfresh tenantID tenant hfind
  refine ⟨t', ?_, hid, hname, hlen⟩
  simp [TenantControlPlane.GetTenant, TenantService.GetTenant, hstored']

/-- C24 after onboarding and activating `Demo Corp`: suspending it and onboarding a tenant
with another identity keeps it stored under its name. -/
theorem C24_tenants_never_deleted_witness :
    ∃ t', ((NewTenantControlPlane.run
        [Op.onboardTenant "Demo Corp" uuidOne 0, Op.activateTenant "tenant-3f2a9c1e"]).run
        [Op.suspendTenant "tenant-3f2a9c1e",
          Op.onboardTenant "Other Corp" "7b1d44c0-2222-4222-8222-222222222222" 1]).GetTenant
        "tenant-3f2a9c1e" = Except.ok t' ∧
      t'.TenantID = "tenant-3f2a9c1e" ∧ t'.Name = "Demo Corp" ∧
      ((NewTenantControlPlane.run
        [Op.onboardTenant "Demo Corp" uuidOne 0,
          Op.activateTenant "tenant-3f2a9c1e"]).GetTenantCapabilities
          "tenant-3f2a9c1e").length ≤
        (((NewTenantControlPlane.run
          [Op.onboardTenant "Demo Corp" uuidOne 0, Op.activateTenant "tenant-3f2a9c1e"]).run
          [Op.suspendTenant "tenant-3f2a9c1e",
            Op.onboardTenant "Other Corp" "7b1d44c0-2222-4222-8222-222222222222"
              1]).GetTenantCapabilities "tenant-3f2a9c1e").length :=
  C24_tenants_never_deleted
    (NewTenantControlPlane.run
      [Op.onboardTenant "Demo Corp" uuidOne 0, Op.activateTenant "tenant-3f2a9c1e"])
    [Op.suspendTenant "tenant-3f2a9c1e",
      Op.onboardTenant "Other Corp" "7b1d44c0-2222-4222-8222-222222222222" 1]
    "tenant-3f2a9c1e"
    { TenantID := "tenant-3f2a9c1e", Name := "Demo Corp", Status := StatusActive,
      CreatedAt := 0, Metadata := [] }
    (run_keyedByID _ _ NewTenantControlPlane_keyedByID)
    ⟨trivial, by unfold Op.freshIn; decide, trivial⟩
    rfl

/-! ## C26: the effect of a successful provisioning -/

/-- C26: when `EnableCapability` returns no error, the capability sequence of the tenant is
the old one followed by one capability with the given type and name, `Enabled = true`,
`MaxLimit = quota`, `CurrentUsage = 0` and `Unit = "units"`; the capability sequences of
all other tenants and the tenant map are the old ones. -/
theorem C26_enable_capability_appends (r : TenantRepository) (tenantID : String)
    (capType : CapabilityType) (name : String) (quota : Int)
    (hok : (CapabilityService.EnableCapability r tenantID capType name quota).2 = none) :
    (CapabilityService.EnableCapability r tenantID capType name quota).1.GetCapabilities
        tenantID =
      r.GetCapabilities tenantID ++
        [{ CapType := capType, Name := name, Enabled := true, Config := [],
           Quota := { MaxLimit := quota, CurrentUsage := 0, Unit := "units" } }] ∧
    (∀ other, other ≠ tenantID →
      (CapabilityService.EnableCapability r tenantID capType name
          quota).1.tenantCapabilities other = r.tenantCapabilities other ∧
      (CapabilityService.EnableCapability r tenantID capType name
          quota).1.GetCapabilities other = r.GetCapabilities other) ∧
    (CapabilityService.EnableCapability r tenantID capType name quota).1.tenants =
      r.tenants := by
  unfold CapabilityService.EnableCapability at hok ⊢
  cases hfind : r.FindByID tenantID with
  | none => simp [hfind] at hok
  | some tenant =>
    by_cases hst : tenant.Status = StatusActive
    · simp only [hst, ne_eq, not_true_eq_false, if_false]
      refine ⟨?_, ?_, rfl⟩
      · simp [TenantRepository.AddCapability, TenantRepository.GetCapabilities, GoMap.set,
          NewCapability, NewResourceQuota]
      · intro other hother
        simp [TenantRepository.AddCapability, TenantRepository.GetCapabilities, GoMap.set,
          hother]
    · simp [hfind, hst] at hok

/-- C26 at the example repository: a second capability `"api"` is appended after
`"storage"`. -/
theorem C26_enable_capability_appends_witness :
    (CapabilityService.EnableCapability exampleRepository "tenant-a" CapabilityAPICalls
        "api" 10000).1.GetCapabilities "tenant-a" =
      exampleRepository.GetCapabilities "tenant-a" ++
        [{ CapType := CapabilityAPICalls, Name := "api", Enabled := true, Config := [],
           Quota := { MaxLimit := 10000, CurrentUsage := 0, Unit := "units" } }] :=
  (C26_enable_capability_appends exampleRepository "tenant-a" CapabilityAPICalls "api"
    10000 (by decide)).1

/-! ## C28: the addition in `CanAllocate` -/

/-- C28, as the code has it: `CanAllocate(requested)` is true exactly when the 64-bit
two's-complement sum of `CurrentUsage` and `requested` is at most `MaxLimit`; this is the
comparison of the exact sum whenever the exact sum is an `int64`, and for `int64` operands
whose exact sum is above the range it is the comparison of the exact sum less `2^64`, for
a sum below the range the one of the exact sum plus `2^64`. -/
theorem C28_can_allocate_wraps (q : ResourceQuota) (requested : Int) :
    (q.CanAllocate requested = true ↔
      wrapInt64 (q.CurrentUsage + requested) ≤ q.MaxLimit) ∧
    (IsInt64 (q.CurrentUsage + requested) →
      (q.CanAllocate requested = true ↔ q.CurrentUsage + requested ≤ q.MaxLimit)) ∧
    (IsInt64 q.CurrentUsage → IsInt64 requested → 2 ^ 63 ≤ q.CurrentUsage + requested →
      (q.CanAllocate requested = true ↔
        q.CurrentUsage + requested - 2 ^ 64 ≤ q.MaxLimit)) ∧
    (IsInt64 q.CurrentUsage → IsInt64 requested → q.CurrentUsage + requested < -(2 ^ 63) →
      (q.CanAllocate requested = true ↔
        q.CurrentUsage + requested + 2 ^ 64 ≤ q.MaxLimit)) := by
  refine ⟨?_, ?_, ?_, ?_⟩
  · simp [ResourceQuota.CanAllocate]
  · intro hfit
    simp [ResourceQuota.CanAllocate, wrapInt64_of_isInt64 _ hfit]
  · intro hcu hreq hover
    have hwrap : wrapInt64 (q.CurrentUsage + requested) =
        q.CurrentUsage + requested - 2 ^ 64 := by
      unfold IsInt64 at hcu hreq
      unfold wrapInt64
      omega
    simp [ResourceQuota.CanAllocate, hwrap]
  · intro hcu hreq hunder
    have hwrap : wrapInt64 (q.CurrentUsage + requested) =
        q.CurrentUsage + requested + 2 ^ 64 := by
      unfold IsInt64 at hcu hreq
      unfold wrapInt64
      omega
    simp [ResourceQuota.CanAllocate, hwrap]

/-- C28 at usage 250, limit 1000 and 750 requested units. -/
theorem C28_can_allocate_wraps_witness :
    ResourceQuota.CanAllocate { MaxLimit := 1000, CurrentUsage := 250, Unit := "units" }
      750 = true :=
  ((C28_can_allocate_wraps { MaxLimit := 1000, CurrentUsage := 250, Unit := "units" }
    750).2.1 (by decide)).2 (by decide)

/-- C28 fails as stated: with `CurrentUsage = 2^63 - 1` (recorded through `UpdateUsage` at
the example repository), `MaxLimit = 1000` and `requested = 1`, all `int64` values, the
exact sum `2^63` is above the limit and `CanAllocate` (and `CheckQuota`) is true. -/
theorem C28_wrap_around_counterexample :
    IsInt64 (2 ^ 63 - 1) ∧ IsInt64 1 ∧ IsInt64 1000 ∧
    ¬ ((2 ^ 63 - 1 : Int) + 1 ≤ 1000) ∧
    ResourceQuota.CanAllocate
      { MaxLimit := 1000, CurrentUsage := 2 ^ 63 - 1, Unit := "units" } 1 = true ∧
    CapabilityService.CheckQuota
      (CapabilityService.UpdateUsage exampleRepository "tenant-a" "storage"
        (2 ^ 63 - 1)).1 "tenant-a" "storage" 1 = true := by
  decide

/-! ## C27: capabilities with the same name -/

theorem writeUsage_shadowed (name : String) (usage : Int) (pre : List Capability)
    (first second : Capability) (hsame : first.Name = second.Name) :
    ∃ pre' first', writeUsage name usage (pre ++ [first, second]) = pre' ++ [first', second] ∧
      pre'.map Capability.fixedPart = pre.map Capability.fixedPart ∧
      first'.fixedPart = first.fixedPart := by
  induction pre with
  | nil =>
    by_cases hn : first.Name = name
    · exact ⟨[], { first with Quota := { first.Quota with CurrentUsage := usage } },
        by simp [writeUsage, hn], rfl, rfl⟩
    · have hn2 : second.Name ≠ name := by rw [← hsame]; exact hn
      exact ⟨[], first, by simp [writeUsage, hn, hn2], rfl, rfl⟩
  | cons p rest ih =>
    by_cases hp : p.Name = name
    · exact ⟨{ p with Quota := { p.Quota with CurrentUsage := usage } } :: rest, first,
        by simp [writeUsage, hp], by simp [Capability.fixedPart], rfl⟩
    · obtain ⟨pre', first', hwrite, hpre, hfirst⟩ := ih
      refine ⟨p :: pre', first', ?_, by simp [hpre], hfirst⟩
      rw [List.cons_append, writeUsage, if_neg hp, hwrite, List.cons_append]

theorem UpdateUsage_shadowedAt (r : TenantRepository) (T : String) (old : List Capability)
    (base second : Capability) (pre : List Capability) (first : Capability)
    (hname : base.Name = second.Name) (hinv : r.ShadowedAt T old base second pre first)
    (tenantID name : String) (usage : Int) :
    ∃ pre' first', (CapabilityService.UpdateUsage r tenantID name usage).1.ShadowedAt
      T old base second pre' first' := by
  obtain ⟨hcaps, hpre, hfirst⟩ := hinv
  unfold CapabilityService.UpdateUsage
  cases hfind : r.FindCapability tenantID name with
  | none => exact ⟨pre, first, hcaps, hpre, hfirst⟩
  | some found =>
    by_cases hT : T = tenantID
    · subst hT
      have hsame : first.Name = second.Name := by
        have h := congrArg (fun x => x.2.1) hfirst
        simp only [Capability.fixedPart] at h
        rw [h]; exact hname
      obtain ⟨pre', first', hwrite, hpre', hfirst'⟩ :=
        writeUsage_shadowed name usage pre first second hsame
      refine ⟨pre', first', ?_, hpre'.trans hpre, hfirst'.trans hfirst⟩
      simp [GoMap.set, hcaps, hwrite]
    · refine ⟨pre, first, ?_, hpre, hfirst⟩
      simp [GoMap.set, hT, hcaps]

theorem run_recordUsage_shadowedAt (ops : List Op) (cp : TenantControlPlane) (T : String)
    (old : List Capability) (base second : Capability) (pre : List Capability)
    (first : Capability) (hname : base.Name = second.Name)
    (hinv : cp.repository.ShadowedAt T old base second pre first)
    (hops : ∀ op ∈ ops, ∃ t c u, op = Op.recordUsage t c u) :
    ∃ pre' first', (cp.run ops).repository.ShadowedAt T old base second pre' first' := by
  induction ops generalizing cp pre first with
  | nil => exact ⟨pre, first, hinv⟩
  | cons op rest ih =>
    obtain ⟨t, c, u, hop⟩ := hops op (List.mem_cons_self op rest)
    subst hop
    obtain ⟨pre1, first1, hinv1⟩ :=
      UpdateUsage_shadowedAt cp.repository T old base second pre first hname hinv t c u
    exact ih (cp.apply (Op.recordUsage t c u)) pre1 first1 hinv1
      (fun op' hop' => hops op' (List.mem_cons_of_mem _ hop'))

theorem fixedPart_names (pre old : List Capability) (name : String)
    (hpre : pre.map Capability.fixedPart = old.map Capability.fixedPart)
    (hold : ∀ c ∈ old, c.Name ≠ name) : ∀ c ∈ pre, c.Name ≠ name := by
  intro c hc
  have hmem : c.fixedPart ∈ old.map Capability.fixedPart := by
    rw [← hpre]
    exact List.mem_map_of_mem _ hc
  obtain ⟨c', hc', heq⟩ := List.mem_map.1 hmem
  have hn : c'.Name = c.Name := by
    have h := congrArg (fun x => x.2.1) heq
    simpa [Capability.fixedPart] using h
  rw [← hn]
  exact hold c' hc'

theorem EnableCapability_ok (r : TenantRepository) (tenantID : String)
    (capType : CapabilityType) (name : String) (quota : Int)
    (hok : (CapabilityService.EnableCapability r tenantID capType name quota).2 = none) :
    (CapabilityService.EnableCapability r tenantID capType name quota).1 =
      r.AddCapability tenantID (NewCapability capType name quota) := by
  unfold CapabilityService.EnableCapability at hok ⊢
  cases hfind : r.FindByID tenantID with
  | none => simp [hfind] at hok
  | some tenant =>
    by_cases hst : tenant.Status = StatusActive
    · simp [hst]
    · simp [hfind, hst] at hok

theorem AddCapability_capabilities (r : TenantRepository) (tenantID : String)
    (capability : Capability) :
    (r.AddCapability tenantID capability).tenantCapabilities tenantID =
      some (r.GetCapabilities tenantID ++ [capability]) := by
  simp [TenantRepository.AddCapability, TenantRepository.GetCapabilities, GoMap.set]

/-- C27, as the code has it: when `ProvisionCapability` returns no error twice for tenant
`T` with the same name `n` (quotas `q1`, then `q2`), the capability sequence is the old
one followed by the two new capabilities in that order; after any `RecordUsage` calls the
second of them is still last in the sequence with `CurrentUsage = 0`; and when the tenant
held no capability named `n` before the two calls, the capability in front of it is the
first with the name: it has limit `q1`, `FindCapability` returns it, `CheckQuota(T, n, u)`
compares its usage plus `u` with `q1`, and `RecordUsage(T, n, v)` sets its usage to `v`
and nothing else. -/
theorem C27_duplicate_names_shadowed (cp cp1 cp2 : TenantControlPlane) (T n : String)
    (ty1 ty2 : CapabilityType) (q1 q2 : Int) (ops : List Op)
    (hcp1 : cp.ProvisionCapability T ty1 n q1 = (cp1, none))
    (hcp2 : cp1.ProvisionCapability T ty2 n q2 = (cp2, none))
    (hops : ∀ op ∈ ops, ∃ t c u, op = Op.recordUsage t c u) :
    cp2.GetTenantCapabilities T =
      cp.GetTenantCapabilities T ++
        [{ CapType := ty1, Name := n, Enabled := true, Config := [],
           Quota := { MaxLimit := q1, CurrentUsage := 0, Unit := "units" } },
         { CapType := ty2, Name := n, Enabled := true, Config := [],
           Quota := { MaxLimit := q2, CurrentUsage := 0, Unit := "units" } }] ∧
    (∃ front, (cp2.run ops).GetTenantCapabilities T =
        front ++
          [{ CapType := ty2, Name := n, Enabled := true, Config := [],
             Quota := { MaxLimit := q2, CurrentUsage := 0, Unit := "units" } }] ∧
      front.length = (cp.GetTenantCapabilities T).length + 1) ∧
    ((∀ c ∈ cp.GetTenantCapabilities T, c.Name ≠ n) →
      ∃ pre first, (cp2.run ops).GetTenantCapabilities T =
          pre ++
            [first,
             { CapType := ty2, Name := n, Enabled := true, Config := [],
               Quota := { MaxLimit := q2, CurrentUsage := 0, Unit := "units" } }] ∧
        (∀ c ∈ pre, c.Name ≠ n) ∧
        first.CapType = ty1 ∧ first.Name = n ∧ first.Enabled = true ∧
        first.Quota.MaxLimit = q1 ∧
        (cp2.run ops).repository.FindCapability T n = some first ∧
        (∀ u, CapabilityService.CheckQuota (cp2.run ops).repository T n u =
          decide (wrapInt64 (first.Quota.CurrentUsage + u) ≤ q1)) ∧
        (∀ v, ((cp2.run ops).RecordUsage T n v).2 = none ∧
          ((cp2.run ops).RecordUsage T n v).1.GetTenantCapabilities T =
            pre ++
              [{ CapType := first.CapType, Name := first.Name, Enabled := first.Enabled,
                 Config := first.Config,
                 Quota := { MaxLimit := first.Quota.MaxLimit, CurrentUsage := v,
                            Unit := first.Quota.Unit } },
               { CapType := ty2, Name := n, Enabled := true, Config := [],
                 Quota := { MaxLimit := q2, CurrentUsage := 0, Unit := "units" } }])) := by
  have hrepo1 : cp1.repository = cp.repository.AddCapability T (NewCapability ty1 n q1) := by
    have hok : (CapabilityService.EnableCapability cp.repository T ty1 n q1).2 = none :=
      congrArg Prod.snd hcp1
    have h := congrArg (fun x => x.1.repository) hcp1
    simp only [TenantControlPlane.ProvisionCapability] at h
    rw [← h]
    exact EnableCapability_ok _ _ _ _ _ hok
  have hrepo2 : cp2.repository =
      cp1.repository.AddCapability T (NewCapability ty2 n q2) := by
    have hok : (CapabilityService.EnableCapability cp1.repository T ty2 n q2).2 = none :=
      congrArg Prod.snd hcp2
    have h := congrArg (fun x => x.1.repository) hcp2
    simp only [TenantControlPlane.ProvisionCapability] at h
    rw [← h]
    exact EnableCapability_ok _ _ _ _ _ hok
  have hcaps1 : cp1.repository.GetCapabilities T =
      cp.repository.GetCapabilities T ++ [NewCapability ty1 n q1] := by
    unfold TenantRepository.GetCapabilities
    rw [hrepo1, AddCapability_capabilities]
    rfl
  have hcaps2 : cp2.repository.tenantCapabilities T =
      some (cp.repository.GetCapabilities T ++
        [NewCapability ty1 n q1, NewCapability ty2 n q2]) := by
    rw [hrepo2, AddCapability_capabilities, hcaps1]
    simp
  have hinv : cp2.repository.ShadowedAt T (cp.repository.GetCapabilities T)
      (NewCapability ty1 n q1) (NewCapability ty2 n q2) (cp.repository.GetCapabilities T)
      (NewCapability ty1 n q1) := ⟨hcaps2, rfl, rfl⟩
  obtain ⟨pre, first, hcaps3, hpre, hfirst⟩ :=
    run_recordUsage_shadowedAt ops cp2 T _ _ _ _ _
      (show (NewCapability ty1 n q1).Name = (NewCapability ty2 n q2).Name from rfl) hinv hops
  have hget3 : (cp2.run ops).repository.GetCapabilities T =
      pre ++ [first, NewCapability ty2 n q2] := by
    unfold TenantRepository.GetCapabilities
    rw [hcaps3]
    rfl
  have hfields : first.CapType = ty1 ∧ first.Name = n ∧ first.Enabled = true ∧
      first.Quota.MaxLimit = q1 := by
    simp only [Capability.fixedPart, NewCapability, NewResourceQuota, Prod.mk.injEq] at hfirst
    exact ⟨hfirst.1, hfirst.2.1, hfirst.2.2.1, hfirst.2.2.2.2.1⟩
  refine ⟨?_, ?_, ?_⟩
  · show cp2.repository.GetCapabilities T = _
    unfold TenantRepository.GetCapabilities
    rw [hcaps2]
    rfl
  · refine ⟨pre ++ [first], ?_, ?_⟩
    · show (cp2.run ops).repository.GetCapabilities T = _
      rw [hget3]
      simp [NewCapability, NewResourceQuota]
    · have hlen := congrArg List.length hpre
      simp only [List.length_map] at hlen
      simp only [List.length_append, List.length_singleton, hlen]
      rfl
  · intro hold
    have hprenames := fixedPart_names pre _ n hpre hold
    have hfind : (cp2.run ops).repository.FindCapability T n = some first := by
      unfold TenantRepository.FindCapability
      rw [hcaps3]
      exact findByName_first n pre first _ hprenames hfields.2.1
    refine ⟨pre, first, hget3, hprenames, hfields.1, hfields.2.1, hfields.2.2.1,
      hfields.2.2.2, hfind, ?_, ?_⟩
    · intro u
      unfold CapabilityService.CheckQuota
      rw [hfind]
      simp [hfields.2.2.1, ResourceQuota.CanAllocate, hfields.2.2.2]
    · intro v
      unfold TenantControlPlane.RecordUsage CapabilityService.UpdateUsage
      simp only [hfind, hcaps3, Option.getD_some]
      refine ⟨trivial, ?_⟩
      show TenantRepository.GetCapabilities _ T = _
      unfold TenantRepository.GetCapabilities
      simp only [GoMap_set_self, Option.getD_some]
      exact writeUsage_first n v pre first _ hprenames hfields.2.1

/-- C27 at the example repository, which holds no capability named `"api"`: `"api"` is
provisioned twice with quotas 10 and 20 and usage 7 is recorded; `FindCapability` returns
a capability with limit 10. -/
theorem C27_duplicate_names_shadowed_witness :
    ∃ first, first.Quota.MaxLimit = 10 ∧
      (((((TenantControlPlane.mk exampleRepository exampleResolver).ProvisionCapability
          "tenant-a" CapabilityAPICalls "api" 10).1.ProvisionCapability
          "tenant-a" CapabilityAPICalls "api" 20).1.run
          [Op.recordUsage "tenant-a" "api" 7]).repository.FindCapability
            "tenant-a" "api") = some first := by
  obtain ⟨_, first, _, _, _, _, _, hlimit, hfind, _⟩ :=
    (C27_duplicate_names_shadowed (TenantControlPlane.mk exampleRepository exampleResolver)
      ((TenantControlPlane.mk exampleRepository exampleResolver).ProvisionCapability
        "tenant-a" CapabilityAPICalls "api" 10).1
      (((TenantControlPlane.mk exampleRepository exampleResolver).ProvisionCapability
        "tenant-a" CapabilityAPICalls "api" 10).1.ProvisionCapability
        "tenant-a" CapabilityAPICalls "api" 20).1
      "tenant-a" "api" CapabilityAPICalls CapabilityAPICalls 10 20
      [Op.recordUsage "tenant-a" "api" 7]
      (Prod.ext rfl (by decide)) (Prod.ext rfl (by decide))
      (by
        intro op hop
        simp only [List.mem_singleton] at hop
        exact ⟨_, _, _, hop⟩)).2.2 (by decide)
  exact ⟨first, hlimit, hfind⟩

/-- C27 fails as stated: the tenant of the example repository is `ACTIVE` and holds a
capability `"storage"` with limit 1000 and usage 250; `"storage"` is provisioned twice
with quotas 10 and 20, both without error, and then `FindCapability` returns the one with
limit 1000, `CheckQuota` of 500 units is true although `0 + 500 ≤ 10` is false, and
`RecordUsage` of 7 changes the usage of the one with limit 1000 and leaves the one with
limit 10 at usage 0. -/
theorem C27_earlier_capability_counterexample :
    ((TenantControlPlane.mk exampleRepository exampleResolver).ProvisionCapability
        "tenant-a" CapabilityStorage "storage" 10).2 = none ∧
    (((TenantControlPlane.mk exampleRepository exampleResolver).ProvisionCapability
        "tenant-a" CapabilityStorage "storage" 10).1.ProvisionCapability
        "tenant-a" CapabilityStorage "storage" 20).2 = none ∧
    (((TenantControlPlane.mk exampleRepository exampleResolver).ProvisionCapability
        "tenant-a" CapabilityStorage "storage" 10).1.ProvisionCapability
        "tenant-a" CapabilityStorage "storage" 20).1.repository.FindCapability
        "tenant-a" "storage" =
      some { CapType := CapabilityStorage, Name := "storage", Enabled := true, Config := [],
             Quota := { MaxLimit := 1000, CurrentUsage := 250, Unit := "units" } } ∧
    CapabilityService.CheckQuota
      (((TenantControlPlane.mk exampleRepository exampleResolver).ProvisionCapability
        "tenant-a" CapabilityStorage "storage" 10).1.ProvisionCapability
        "tenant-a" CapabilityStorage "storage" 20).1.repository
      "tenant-a" "storage" 500 = true ∧
    ¬ ((0 : Int) + 500 ≤ 10) ∧
    ((((TenantControlPlane.mk exampleRepository exampleResolver).ProvisionCapability
        "tenant-a" CapabilityStorage "storage" 10).1.ProvisionCapability
        "tenant-a" CapabilityStorage "storage" 20).1.RecordUsage
        "tenant-a" "storage" 7).1.GetTenantCapabilities "tenant-a" =
      [{ CapType := CapabilityStorage, Name := "storage", Enabled := true, Config := [],
         Quota := { MaxLimit := 1000, CurrentUsage := 7, Unit := "units" } },
       { CapType := CapabilityStorage, Name := "storage", Enabled := true, Config := [],
         Quota := { MaxLimit := 10, CurrentUsage := 0, Unit := "units" } },
       { CapType := CapabilityStorage, Name := "storage", Enabled := true, Config := [],
         Quota := { MaxLimit := 20, CurrentUsage := 0, Unit := "units" } }] := by
  decide

end TenantCP
